import Mathlib

/-!
Verification of the board model, territory heuristic and search-engine
selection logic of the `rustsnake` repository, against its natural-language
specification.

The Rust sources are shallowly embedded:
* `usize` cell indices become `Nat`, with the sentinel `usize::MAX`
  modelled as `usizeMax = 2^64 - 1`.  Rust `usize` arithmetic in the
  sources is always guarded (`head_index >= width` before `head_index -
  width`, `head_index + width < board_size` before using the sum), so
  `Nat` arithmetic agrees with it except on degenerate boards whose cell
  indices approach `2^64`; such boards are excluded by explicit
  hypotheses where it could matter.
* `u8` health becomes `Nat`; `saturating_sub` is `Nat` subtraction.
* `VecDeque<Position>` bodies become `List Nat`, front = head.
* fallible steps (Rust panics) surface as `Option`: the only reachable
  panic in `resolve_collisions` is `Vec::swap_remove` with a stale index
  in the eaten-food removal loop, so the function returns `Option
  GameState`, `none` meaning the Rust code panics.

The repository contains two iterations of the same three files:
`snake/src` (the main crate, with tests) and `src` (an earlier
iteration, embedded here inside namespace `RootCrate` where it differs).
-/

/-- `usize::MAX`, the off-board sentinel used by the Rust code. -/
def usizeMax : Nat := 2 ^ 64 - 1

/-- `u32::MAX`, the initial value of the `min_depth` vector in the
heuristic's frontier expansion. -/
def u32Max : Nat := 2 ^ 32 - 1

/-- A direction, from `game_state.rs` (`enum Direction`). -/
inductive Direction where
  | up
  | down
  | left
  | right
deriving DecidableEq, Repr

/-- A snake, from `game_state.rs` (`struct Snake`): a stable identifier, a
body as a head-first sequence of cell indices, and a health counter. -/
structure Snake where
  id : String
  body : List Nat
  health : Nat
deriving DecidableEq, Repr

/-- `Snake::head`: the front of the body, or the off-board sentinel for an
empty body (`unwrap_or(Position { index: usize::MAX })`). -/
def Snake.head (s : Snake) : Nat :=
  s.body.headD usizeMax

/-- `Snake::length`: the number of body segments. -/
def Snake.length (s : Snake) : Nat :=
  s.body.length

/-- The board model, from `game_state.rs` (`struct GameState`). -/
structure GameState where
  width : Nat
  height : Nat
  snakes : List Snake
  food : List Nat
  hazards : List Nat
deriving DecidableEq, Repr

/-- The new-head computation shared verbatim by `move_snake` and
`get_safe_moves` in `game_state.rs` (the `match direction` block):
an orthogonal step in row-major indexing, or `usize::MAX` when the step
leaves the board. -/
def stepIndex (width boardSize headIndex : Nat) : Direction → Nat
  | Direction.up => if width ≤ headIndex then headIndex - width else usizeMax
  | Direction.down => if headIndex + width < boardSize then headIndex + width else usizeMax
  | Direction.left => if headIndex % width ≠ 0 then headIndex - 1 else usizeMax
  | Direction.right => if headIndex % width ≠ width - 1 then headIndex + 1 else usizeMax

/-- `GameState::move_snake`: push the stepped head onto the front of the
body, drop the last segment, and decrement health by 1 (saturating).
Out-of-range indices, dead snakes and snakes already off the board are
left untouched.  Identical in both crate iterations. -/
def move_snake (gs : GameState) (snake_index : Nat) (direction : Direction) : GameState :=
  match gs.snakes.get? snake_index with
  | none => gs
  | some snake =>
    if snake.health = 0 then gs
    else
      let width := gs.width
      let board_size := width * gs.height
      let head_index := snake.head
      if head_index = usizeMax then gs
      else
        let new_index := stepIndex width board_size head_index direction
        { gs with
            snakes := gs.snakes.set snake_index
              { snake with
                  body := (new_index :: snake.body).dropLast
                  health := snake.health - 1 } }

/-- Health of the `i`-th snake in a list (0, i.e. dead, when out of range). -/
def healthAt (snakes : List Snake) (i : Nat) : Nat :=
  ((snakes.get? i).map Snake.health).getD 0

/-- Head cell of the `i`-th snake in a list (sentinel when out of range). -/
def headAt (snakes : List Snake) (i : Nat) : Nat :=
  ((snakes.get? i).map Snake.head).getD usizeMax

/-- Body length of the `i`-th snake in a list (0 when out of range). -/
def lengthAt (snakes : List Snake) (i : Nat) : Nat :=
  ((snakes.get? i).map Snake.length).getD 0

/-- Neck cell (`body.get(1)`) of the `i`-th snake in a list. -/
def neckAt (snakes : List Snake) (i : Nat) : Option Nat :=
  (snakes.get? i).bind fun s => s.body.get? 1

/-- First phase of `resolve_collisions`: mark every living snake whose
head is the off-board sentinel (`// Check for out-of-bounds ...`). -/
def oob_kills (snakes : List Snake) : Finset Nat :=
  (Finset.range snakes.length).filter fun i =>
    healthAt snakes i ≠ 0 ∧ headAt snakes i = usizeMax

/-- Tail duplication on food consumption: `if let Some(&tail) =
snake.body.back() { snake.body.push_back(tail); }`. -/
def growBody (body : List Nat) : List Nat :=
  match body.getLast? with
  | some tail => body ++ [tail]
  | none => body

/-- The per-snake effect of the food-consumption / hazard-damage loop of
`resolve_collisions`: eating first occurrence of the head in the food
list resets health to 100 and duplicates the tail; a head on a hazard
then loses 15 health (saturating).  The loop reads `self.food` and
`self.hazards`, which it does not mutate. -/
def transformSnake (food hazards : List Nat) (snake : Snake) : Snake :=
  if snake.health = 0 then snake
  else
    let head := snake.head
    let snake1 :=
      match food.findIdx? (fun f => f = head) with
      | some _ => { snake with health := 100, body := growBody snake.body }
      | none => snake
    if head ∈ hazards then { snake1 with health := snake1.health - 15 } else snake1

/-- The food-consumption / hazard-damage loop of `resolve_collisions`
(`// Food consumption and hazard damage`), iterating over the snakes in
index order starting at index `i0`.  Returns the updated snakes, the
list of eaten food indices in push order, and the set of snakes killed
by hazard damage. -/
def food_hazard_pass (food hazards : List Nat) : Nat → List Snake → List Snake × List Nat × Finset Nat
  | _, [] => ([], [], ∅)
  | i0, snake :: rest =>
    let r := food_hazard_pass food hazards (i0 + 1) rest
    if snake.health = 0 then (snake :: r.1, r.2.1, r.2.2)
    else
      let head := snake.head
      let eatenHere : List Nat :=
        match food.findIdx? (fun f => f = head) with
        | some k => [k]
        | none => []
      let killHere : Finset Nat :=
        if head ∈ hazards ∧ (transformSnake food hazards snake).health = 0 then {i0} else ∅
      (transformSnake food hazards snake :: r.1, eatenHere ++ r.2.1, killHere ∪ r.2.2)

/-- `Vec::swap_remove(k)`: replace element `k` with the last element and
pop; `none` models the Rust panic when `k` is out of range. -/
def swapRemove (l : List Nat) (k : Nat) : Option (List Nat) :=
  if k < l.length then some ((l.set k (l.getLastD 0)).dropLast) else none

/-- The eaten-food removal loop of `resolve_collisions`
(`for index in eaten_food.into_iter().rev() { self.food.swap_remove(index); }`).
`none` models the panic on a stale out-of-range index. -/
def remove_eaten_food (food : List Nat) (eaten : List Nat) : Option (List Nat) :=
  eaten.reverse.foldl (fun acc k => acc.bind fun f => swapRemove f k) (some food)

/-- `GameState::handle_head_collision` on a group of snake indices: the
snakes of non-maximal length die; when all lengths are equal, all die.
(`iter().max().unwrap()` is modelled as a fold with default 0; the
function is only ever called on nonempty groups, where the two agree.) -/
def handle_head_collision (snakes : List Snake) (snakes_at_position : List Nat) : Finset Nat :=
  let lengths := snakes_at_position.map (lengthAt snakes)
  let max_length := lengths.foldl Nat.max 0
  let all_same_length := lengths.all fun l => l = max_length
  snakes_at_position.foldl
    (fun acc i =>
      if all_same_length then insert i acc
      else if lengthAt snakes i < max_length then insert i acc
      else acc)
    ∅

/-- The body of the inner `for j in (i + 1)..self.snakes.len()` loop of
the head-on collision phase of `resolve_collisions`: a shared head cell
(case 1), or mutually swapped head/neck cells (case 2), sends the pair
`[i, j]` to `handle_head_collision`. -/
def pair_step (snakes : List Snake) (i : Nat) (acc2 : Finset Nat) (j : Nat) : Finset Nat :=
  if healthAt snakes j = 0 then acc2
  else if headAt snakes i = headAt snakes j then
    acc2 ∪ handle_head_collision snakes [i, j]
  else if neckAt snakes i = some (headAt snakes j) ∧
      neckAt snakes j = some (headAt snakes i) then
    acc2 ∪ handle_head_collision snakes [i, j]
  else acc2

/-- The head-on collision phase of `resolve_collisions` (`// Handle
head-on collisions (including passing through each other's necks)`): for
every pair `i < j` of living snakes, apply `pair_step`. -/
def head_collision_kills (snakes : List Snake) : Finset Nat :=
  let n := snakes.length
  (List.range n).foldl
    (fun acc i =>
      if healthAt snakes i = 0 then acc
      else (List.range' (i + 1) (n - (i + 1))).foldl (pair_step snakes i) acc)
    ∅

/-- The collision test of the head-on phase for a pair of snakes: heads
on the same cell, or heads passed through each other's necks. -/
def collides (snakes : List Snake) (i j : Nat) : Prop :=
  headAt snakes i = headAt snakes j ∨
    (neckAt snakes i = some (headAt snakes j) ∧ neckAt snakes j = some (headAt snakes i))

/-- The `body_positions` map of `resolve_collisions`: cell → index of the
living snake whose non-head body covers it.  The Rust `HashMap` is
filled by iterating snakes in index order with insert-overwrite, so the
lookup yields the last (largest) such index; modelled as a fold over the
indices in order. -/
def body_positions_get (snakes : List Snake) (pos : Nat) : Option Nat :=
  (List.range snakes.length).foldl
    (fun acc i =>
      if healthAt snakes i ≠ 0 ∧ pos ∈ (((snakes.get? i).map Snake.body).getD []).drop 1 then
        some i
      else acc)
    none

/-- Whether the body-collision phase kills snake `i`: self-collision
(head inside its own non-head body), or head inside another living
snake's non-head body. -/
def body_kill (snakes : List Snake) (i : Nat) : Bool :=
  if healthAt snakes i = 0 then false
  else
    let head := headAt snakes i
    if head ∈ (((snakes.get? i).map Snake.body).getD []).drop 1 then true
    else
      match body_positions_get snakes head with
      | some other_snake_index => other_snake_index ≠ i
      | none => false

/-- The body-collision phase of `resolve_collisions` (`// Handle
collisions with bodies and self-collisions`). -/
def body_collision_kills (snakes : List Snake) : Finset Nat :=
  (Finset.range snakes.length).filter fun i => body_kill snakes i = true

/-- Helper for `apply_kills`, walking the snake list with its index. -/
def apply_kills_aux (kills : Finset Nat) : Nat → List Snake → List Snake
  | _, [] => []
  | i, snake :: rest =>
    (if i ∈ kills then { snake with health := 0 } else snake) ::
      apply_kills_aux kills (i + 1) rest

/-- The final mutation of `resolve_collisions`: set health 0 for every
snake in the kill set (`for &i in &snakes_to_kill { ... }`). -/
def apply_kills (snakes : List Snake) (kills : Finset Nat) : List Snake :=
  apply_kills_aux kills 0 snakes

/-- `GameState::resolve_collisions` (snake crate): out-of-bounds
detection, food and hazard handling, eaten-food removal, head-on and
swapped-head collisions, body collisions, then all deaths applied
atomically.  `none` models the `swap_remove` panic of the removal loop. -/
def resolve_collisions (gs : GameState) : Option GameState :=
  let kills0 := oob_kills gs.snakes
  let fh := food_hazard_pass gs.food gs.hazards 0 gs.snakes
  let snakes1 := fh.1
  let eaten_food := fh.2.1
  let kills1 := fh.2.2
  match remove_eaten_food gs.food eaten_food with
  | none => none
  | some food1 =>
    let kills2 := head_collision_kills snakes1
    let kills3 := body_collision_kills snakes1
    some { gs with
             snakes := apply_kills snakes1 (kills0 ∪ kills1 ∪ kills2 ∪ kills3)
             food := food1 }

/-- `GameState::add_snake`. -/
def add_snake (gs : GameState) (id : String) (body : List Nat) (health : Nat) : GameState :=
  { gs with snakes := gs.snakes ++ [{ id := id, body := body, health := health }] }

/-- `GameState::is_safe_move` (snake crate): a destination is unsafe when
it is the snake's own neck (for bodies of length > 1) or lies anywhere in
another living snake's body. -/
def is_safe_move (gs : GameState) (position : Nat) (snake_index : Nat) : Bool :=
  let body := ((gs.snakes.get? snake_index).map Snake.body).getD []
  if 1 < body.length ∧ body.get? 1 = some position then false
  else
    gs.snakes.enum.all fun p =>
      if p.1 = snake_index ∨ p.2.health = 0 then true
      else ¬ position ∈ p.2.body

/-- `GameState::get_safe_moves` (snake crate): the directions whose
destination stays on the board and passes `is_safe_move`. -/
def get_safe_moves (gs : GameState) (snake_index : Nat) : List Direction :=
  match gs.snakes.get? snake_index with
  | none => []
  | some snake =>
    if snake.health = 0 then []
    else
      let head_index := snake.head
      if head_index = usizeMax then []
      else
        [Direction.up, Direction.down, Direction.left, Direction.right].filter fun d =>
          let new_index := stepIndex gs.width (gs.width * gs.height) head_index d
          new_index ≠ usizeMax ∧ is_safe_move gs new_index snake_index = true

namespace RootCrate

/-- `GameState::get_safe_moves` of the root-crate iteration
(`src/game_state.rs`): the directions whose destination stays on the
board and is not the snake's own neck; occupancy by other snakes is
deliberately not checked. -/
def get_safe_moves (gs : GameState) (snake_index : Nat) : List Direction :=
  match gs.snakes.get? snake_index with
  | none => []
  | some snake =>
    if snake.health = 0 then []
    else
      let head_index := snake.head
      if head_index = usizeMax then []
      else
        let neck_index := snake.body.get? 1
        [Direction.up, Direction.down, Direction.left, Direction.right].filter fun d =>
          let new_index := stepIndex gs.width (gs.width * gs.height) head_index d
          new_index ≠ usizeMax ∧ neck_index ≠ some new_index

end RootCrate

/-! ### General fold lemmas -/

lemma mem_foldl_iff {β : Type} (step : Finset Nat → β → Finset Nat) (P : β → Nat → Prop)
    (hstep : ∀ acc b x, x ∈ step acc b ↔ x ∈ acc ∨ P b x) :
    ∀ (l : List β) (acc : Finset Nat) (x : Nat),
      x ∈ l.foldl step acc ↔ x ∈ acc ∨ ∃ b ∈ l, P b x := by
  intro l
  induction l with
  | nil => simp
  | cons b t ih =>
    intro acc x
    rw [List.foldl_cons, ih, hstep]
    simp only [List.mem_cons]
    constructor
    · rintro ((h | h) | ⟨c, hc, hP⟩)
      · exact Or.inl h
      · exact Or.inr ⟨b, Or.inl rfl, h⟩
      · exact Or.inr ⟨c, Or.inr hc, hP⟩
    · rintro (h | ⟨c, (rfl | hc), hP⟩)
      · exact Or.inl (Or.inl h)
      · exact Or.inl (Or.inr hP)
      · exact Or.inr ⟨c, hc, hP⟩

lemma foldl_overwrite_eq_some {p : Nat → Prop} [DecidablePred p] :
    ∀ n k, (List.range n).foldl (fun acc i => if p i then some i else acc) none = some k →
      k < n ∧ p k := by
  intro n
  induction n with
  | zero => intro k h; simp at h
  | succ m ih =>
    intro k h
    rw [List.range_succ, List.foldl_append] at h
    simp only [List.foldl_cons, List.foldl_nil] at h
    by_cases hp : p m
    · rw [if_pos hp] at h
      cases h
      exact ⟨Nat.lt_succ_self m, hp⟩
    · rw [if_neg hp] at h
      obtain ⟨h1, h2⟩ := ih k h
      exact ⟨Nat.lt_succ_of_lt h1, h2⟩

lemma foldl_overwrite_isSome {p : Nat → Prop} [DecidablePred p] :
    ∀ n : Nat, (∃ j, j < n ∧ p j) →
      ∃ k, (List.range n).foldl (fun acc i => if p i then some i else acc) none = some k ∧
        k < n ∧ p k := by
  intro n
  induction n with
  | zero => rintro ⟨j, hj, _⟩; omega
  | succ m ih =>
    rintro ⟨j, hj, hpj⟩
    rw [List.range_succ, List.foldl_append]
    simp only [List.foldl_cons, List.foldl_nil]
    by_cases hp : p m
    · exact ⟨m, by rw [if_pos hp], Nat.lt_succ_self m, hp⟩
    · have hjm : j < m := by
        rcases Nat.lt_succ_iff_lt_or_eq.mp hj with h | h
        · exact h
        · subst h; exact absurd hpj hp
      obtain ⟨k, hk, hkm, hpk⟩ := ih ⟨j, hjm, hpj⟩
      exact ⟨k, by rw [if_neg hp]; exact hk, Nat.lt_succ_of_lt hkm, hpk⟩

lemma forall₂_get? {α β : Type} {R : α → β → Prop} :
    ∀ {l1 : List α} {l2 : List β}, List.Forall₂ R l1 l2 →
      ∀ {i a b}, l1.get? i = some a → l2.get? i = some b → R a b := by
  intro l1 l2 h
  induction h with
  | nil => intro i a b h1 _; simp at h1
  | cons hR _ ih =>
    intro i a b h1 h2
    cases i with
    | zero =>
      simp only [List.get?] at h1 h2
      cases h1; cases h2; exact hR
    | succ j => exact ih h1 h2

/-! ### Characterization of the head-on collision phase -/

lemma mem_handle_pair {snakes : List Snake} {i j x : Nat} :
    x ∈ handle_head_collision snakes [i, j] ↔
      (lengthAt snakes i ≤ lengthAt snakes j ∧ x = i) ∨
        (lengthAt snakes j ≤ lengthAt snakes i ∧ x = j) := by
  unfold handle_head_collision
  simp only [List.map_cons, List.map_nil, List.foldl_cons, List.foldl_nil, List.all_cons,
    List.all_nil, Bool.and_true, Nat.zero_max]
  rcases Nat.lt_trichotomy (lengthAt snakes i) (lengthAt snakes j) with h | h | h
  · have e1 : Nat.max (lengthAt snakes i) (lengthAt snakes j) = lengthAt snakes j :=
      Nat.max_eq_right h.le
    simp only [e1, decide_True, Bool.and_true, decide_eq_true_eq]
    simp only [if_neg (Nat.ne_of_lt h), if_pos h, if_neg (lt_irrefl (lengthAt snakes j))]
    simp only [Finset.mem_insert, Finset.not_mem_empty, or_false]
    constructor
    · rintro rfl; exact Or.inl ⟨le_of_lt h, rfl⟩
    · rintro (⟨_, rfl⟩ | ⟨hc, rfl⟩)
      · rfl
      · omega
  · have e1 : Nat.max (lengthAt snakes i) (lengthAt snakes j) = lengthAt snakes j :=
      Nat.max_eq_right h.le
    simp only [e1, decide_True, Bool.and_true, decide_eq_true_eq]
    simp only [if_pos h]
    simp only [Finset.mem_insert, Finset.not_mem_empty, or_false]
    constructor
    · rintro (rfl | rfl)
      · exact Or.inr ⟨le_of_eq h.symm, rfl⟩
      · exact Or.inl ⟨le_of_eq h, rfl⟩
    · rintro (⟨_, rfl⟩ | ⟨_, rfl⟩)
      · exact Or.inr rfl
      · exact Or.inl rfl
  · have e1 : Nat.max (lengthAt snakes i) (lengthAt snakes j) = lengthAt snakes i :=
      Nat.max_eq_left h.le
    simp only [e1, decide_True, Bool.true_and, decide_eq_true_eq]
    simp only [if_neg (Nat.ne_of_lt h), if_pos h, if_neg (lt_irrefl (lengthAt snakes i))]
    simp only [Finset.mem_insert, Finset.not_mem_empty, or_false]
    constructor
    · rintro rfl; exact Or.inr ⟨le_of_lt h, rfl⟩
    · rintro (⟨hc, rfl⟩ | ⟨_, rfl⟩)
      · omega
      · rfl

instance (snakes : List Snake) (i j : Nat) : Decidable (collides snakes i j) :=
  inferInstanceAs (Decidable (_ ∨ _))

lemma collides_symm {snakes : List Snake} {i j : Nat} (h : collides snakes i j) :
    collides snakes j i := by
  rcases h with h | ⟨h1, h2⟩
  · exact Or.inl h.symm
  · exact Or.inr ⟨h2, h1⟩

lemma lt_length_of_healthAt_ne_zero {snakes : List Snake} {x : Nat}
    (h : healthAt snakes x ≠ 0) : x < snakes.length := by
  by_contra hx
  have hnone : snakes.get? x = none := List.get?_eq_none.mpr (le_of_not_lt hx)
  unfold healthAt at h
  rw [hnone] at h
  simp at h

lemma mem_pair_step {snakes : List Snake} {i : Nat} :
    ∀ (acc : Finset Nat) (j x : Nat),
      x ∈ pair_step snakes i acc j ↔
        x ∈ acc ∨ (healthAt snakes j ≠ 0 ∧ collides snakes i j ∧
          x ∈ handle_head_collision snakes [i, j]) := by
  intro acc j x
  unfold pair_step
  by_cases h1 : healthAt snakes j = 0
  · simp [h1]
  · rw [if_neg h1]
    by_cases h2 : headAt snakes i = headAt snakes j
    · rw [if_pos h2]
      simp only [Finset.mem_union]
      constructor
      · rintro (h | h)
        · exact Or.inl h
        · exact Or.inr ⟨h1, Or.inl h2, h⟩
      · rintro (h | ⟨-, -, h⟩)
        · exact Or.inl h
        · exact Or.inr h
    · rw [if_neg h2]
      by_cases h3 : neckAt snakes i = some (headAt snakes j) ∧
          neckAt snakes j = some (headAt snakes i)
      · rw [if_pos h3]
        simp only [Finset.mem_union]
        constructor
        · rintro (h | h)
          · exact Or.inl h
          · exact Or.inr ⟨h1, Or.inr h3, h⟩
        · rintro (h | ⟨-, -, h⟩)
          · exact Or.inl h
          · exact Or.inr h
      · rw [if_neg h3]
        constructor
        · exact Or.inl
        · rintro (h | ⟨-, hcol, h⟩)
          · exact h
          · rcases hcol with hcol | hcol
            · exact absurd hcol h2
            · exact absurd hcol h3

lemma mem_head_collision_kills {snakes : List Snake} {x : Nat} :
    x ∈ head_collision_kills snakes ↔
      ∃ i j, i < j ∧ j < snakes.length ∧ healthAt snakes i ≠ 0 ∧ healthAt snakes j ≠ 0 ∧
        collides snakes i j ∧ x ∈ handle_head_collision snakes [i, j] := by
  unfold head_collision_kills
  rw [mem_foldl_iff _
    (fun i x => healthAt snakes i ≠ 0 ∧ ∃ j, i < j ∧ j < snakes.length ∧
      healthAt snakes j ≠ 0 ∧ collides snakes i j ∧ x ∈ handle_head_collision snakes [i, j]) ?hstep]
  case hstep =>
    intro acc i y
    by_cases hi : healthAt snakes i = 0
    · rw [if_pos hi]
      constructor
      · exact Or.inl
      · rintro (h | ⟨hne, -⟩)
        · exact h
        · exact absurd hi hne
    · rw [if_neg hi,
        mem_foldl_iff (pair_step snakes i)
          (fun j x => healthAt snakes j ≠ 0 ∧ collides snakes i j ∧
            x ∈ handle_head_collision snakes [i, j]) mem_pair_step]
      constructor
      · rintro (h | ⟨j, hj, hjP⟩)
        · exact Or.inl h
        · refine Or.inr ⟨hi, j, ?_, ?_, hjP⟩
          · exact (List.mem_range'_1.mp hj).1
          · have h1 := (List.mem_range'_1.mp hj).1
            have h2 := (List.mem_range'_1.mp hj).2
            omega
      · rintro (h | ⟨-, j, hij, hjn, hjP⟩)
        · exact Or.inl h
        · refine Or.inr ⟨j, List.mem_range'_1.mpr ⟨hij, ?_⟩, hjP⟩
          omega
  simp only [Finset.not_mem_empty, false_or, List.mem_range]
  constructor
  · rintro ⟨i, hin, hi, j, hij, hjn, hrest⟩
    exact ⟨i, j, hij, hjn, hi, hrest⟩
  · rintro ⟨i, j, hij, hjn, hi, hrest⟩
    exact ⟨i, by omega, hi, j, hij, hjn, hrest⟩

lemma mem_head_collision_kills_le {snakes : List Snake} {x : Nat} :
    x ∈ head_collision_kills snakes ↔
      healthAt snakes x ≠ 0 ∧ ∃ y, y < snakes.length ∧ y ≠ x ∧ healthAt snakes y ≠ 0 ∧
        collides snakes x y ∧ lengthAt snakes x ≤ lengthAt snakes y := by
  rw [mem_head_collision_kills]
  constructor
  · rintro ⟨i, j, hij, hjn, hi, hj, hcol, hmem⟩
    rcases mem_handle_pair.mp hmem with ⟨hle, rfl⟩ | ⟨hle, rfl⟩
    · exact ⟨hi, j, hjn, by omega, hj, hcol, hle⟩
    · exact ⟨hj, i, by omega, by omega, hi, collides_symm hcol, hle⟩
  · rintro ⟨hx, y, hyn, hyx, hy, hcol, hle⟩
    have hxn : x < snakes.length := lt_length_of_healthAt_ne_zero hx
    rcases Nat.lt_or_ge x y with hlt | hge
    · exact ⟨x, y, hlt, hyn, hx, hy, hcol, mem_handle_pair.mpr (Or.inl ⟨hle, rfl⟩)⟩
    · have hlt : y < x := by omega
      exact ⟨y, x, hlt, hxn, hy, hx, collides_symm hcol,
        mem_handle_pair.mpr (Or.inr ⟨hle, rfl⟩)⟩

/-! ### Bookkeeping lemmas for the phases of `resolve_collisions` -/

/-- Identifier of the `i`-th snake in a list. -/
def idAt (snakes : List Snake) (i : Nat) : Option String :=
  (snakes.get? i).map Snake.id

/-- Body of the `i`-th snake in a list. -/
def bodyAt (snakes : List Snake) (i : Nat) : Option (List Nat) :=
  (snakes.get? i).map Snake.body

lemma healthAt_cons_zero {s : Snake} {t : List Snake} : healthAt (s :: t) 0 = s.health := rfl

lemma healthAt_cons_succ {s : Snake} {t : List Snake} {i : Nat} :
    healthAt (s :: t) (i + 1) = healthAt t i := rfl

lemma apply_kills_aux_get? (kills : Finset Nat) :
    ∀ (l : List Snake) (k i : Nat),
      (apply_kills_aux kills k l).get? i =
        (l.get? i).map fun s => if k + i ∈ kills then { s with health := 0 } else s := by
  intro l
  induction l with
  | nil => intro k i; rfl
  | cons s t ih =>
    intro k i
    cases i with
    | zero => simp [apply_kills_aux]
    | succ j =>
      simp only [apply_kills_aux, List.get?]
      rw [ih (k + 1) j]
      have : k + 1 + j = k + (j + 1) := by omega
      rw [this]

lemma apply_kills_get? {l : List Snake} {kills : Finset Nat} {i : Nat} :
    (apply_kills l kills).get? i =
      (l.get? i).map fun s => if i ∈ kills then { s with health := 0 } else s := by
  unfold apply_kills
  rw [apply_kills_aux_get? kills l 0 i]
  simp

lemma apply_kills_length {l : List Snake} {kills : Finset Nat} :
    (apply_kills l kills).length = l.length := by
  unfold apply_kills
  suffices h : ∀ (k : Nat) (l : List Snake), (apply_kills_aux kills k l).length = l.length by
    exact h 0 l
  intro k l
  induction l generalizing k with
  | nil => rfl
  | cons s t ih => simp [apply_kills_aux, ih]

lemma healthAt_apply_kills {l : List Snake} {kills : Finset Nat} {i : Nat} :
    healthAt (apply_kills l kills) i =
      if i ∈ kills ∧ i < l.length then 0 else healthAt l i := by
  unfold healthAt
  rw [apply_kills_get?]
  cases hl : l.get? i with
  | none =>
    have hlen : l.length ≤ i := List.get?_eq_none.mp hl
    have : ¬ i < l.length := by omega
    simp [this]
  | some s =>
    have hi : i < l.length := by
      by_contra hc
      rw [List.get?_eq_none.mpr (le_of_not_lt hc)] at hl
      cases hl
    by_cases hk : i ∈ kills
    · simp [hk, hi]
    · simp [hk]

lemma headAt_apply_kills {l : List Snake} {kills : Finset Nat} {i : Nat} :
    headAt (apply_kills l kills) i = headAt l i := by
  unfold headAt
  rw [apply_kills_get?]
  cases hl : l.get? i with
  | none => rfl
  | some s =>
    by_cases hk : i ∈ kills <;> simp [hk, Snake.head]

lemma idAt_apply_kills {l : List Snake} {kills : Finset Nat} {i : Nat} :
    idAt (apply_kills l kills) i = idAt l i := by
  unfold idAt
  rw [apply_kills_get?]
  cases hl : l.get? i with
  | none => rfl
  | some s => by_cases hk : i ∈ kills <;> simp [hk]

lemma bodyAt_apply_kills {l : List Snake} {kills : Finset Nat} {i : Nat} :
    bodyAt (apply_kills l kills) i = bodyAt l i := by
  unfold bodyAt
  rw [apply_kills_get?]
  cases hl : l.get? i with
  | none => rfl
  | some s => by_cases hk : i ∈ kills <;> simp [hk]

/-- The food-index contribution of one snake in the food/hazard loop. -/
def eatenOf (food : List Nat) (s : Snake) : List Nat :=
  if s.health = 0 then []
  else
    match food.findIdx? (fun f => f = s.head) with
    | some k => [k]
    | none => []

lemma fhp_fst (food hazards : List Nat) :
    ∀ (k : Nat) (l : List Snake),
      (food_hazard_pass food hazards k l).1 = l.map (transformSnake food hazards) := by
  intro k l
  induction l generalizing k with
  | nil => rfl
  | cons s t ih =>
    simp only [food_hazard_pass]
    by_cases hs : s.health = 0
    · rw [if_pos hs]
      simp only [List.map_cons, ih (k + 1)]
      have : transformSnake food hazards s = s := by unfold transformSnake; rw [if_pos hs]
      rw [this]
    · rw [if_neg hs]
      simp only [List.map_cons, ih (k + 1)]

lemma fhp_eaten (food hazards : List Nat) :
    ∀ (k : Nat) (l : List Snake),
      (food_hazard_pass food hazards k l).2.1 = l.flatMap (eatenOf food) := by
  intro k l
  induction l generalizing k with
  | nil => rfl
  | cons s t ih =>
    simp only [food_hazard_pass, List.flatMap_cons]
    by_cases hs : s.health = 0
    · rw [if_pos hs]
      simp only [ih (k + 1)]
      have : eatenOf food s = [] := by unfold eatenOf; rw [if_pos hs]
      rw [this, List.nil_append]
    · rw [if_neg hs]
      simp only [ih (k + 1)]
      have : eatenOf food s =
          (match food.findIdx? (fun f => f = s.head) with
            | some k => [k]
            | none => []) := by
        unfold eatenOf; rw [if_neg hs]
      rw [this]

lemma fhp_kills_health (food hazards : List Nat) :
    ∀ (k : Nat) (l : List Snake) (x : Nat),
      x ∈ (food_hazard_pass food hazards k l).2.2 →
        k ≤ x ∧ healthAt ((food_hazard_pass food hazards k l).1) (x - k) = 0 := by
  intro k l
  induction l generalizing k with
  | nil => intro x hx; simp [food_hazard_pass] at hx
  | cons s t ih =>
    intro x hx
    simp only [food_hazard_pass] at hx ⊢
    by_cases hs : s.health = 0
    · rw [if_pos hs] at hx ⊢
      obtain ⟨h1, h2⟩ := ih (k + 1) x hx
      refine ⟨by omega, ?_⟩
      have : x - k = (x - (k + 1)) + 1 := by omega
      rw [this, healthAt_cons_succ]
      exact h2
    · rw [if_neg hs] at hx ⊢
      simp only [Finset.mem_union] at hx
      rcases hx with hx | hx
      · by_cases hcond : s.head ∈ hazards ∧ (transformSnake food hazards s).health = 0
        · rw [if_pos hcond] at hx
          simp only [Finset.mem_singleton] at hx
          subst hx
          refine ⟨le_refl _, ?_⟩
          simp only [Nat.sub_self, healthAt_cons_zero]
          exact hcond.2
        · rw [if_neg hcond] at hx
          simp at hx
      · obtain ⟨h1, h2⟩ := ih (k + 1) x hx
        refine ⟨by omega, ?_⟩
        have : x - k = (x - (k + 1)) + 1 := by omega
        rw [this, healthAt_cons_succ]
        exact h2

lemma findIdx?_aux_eq_none_of_not_mem {h : Nat} :
    ∀ (food : List Nat) (i : Nat), h ∉ food →
      food.findIdx? (fun f => f = h) i = none := by
  intro food
  induction food with
  | nil => intro i _; rfl
  | cons a t ih =>
    intro i hmem
    rw [List.findIdx?_cons]
    have ha : a ≠ h := fun hc => hmem (hc ▸ List.mem_cons_self a t)
    rw [if_neg (by simpa using ha)]
    exact ih (i + 1) fun hc => hmem (List.mem_cons_of_mem a hc)

lemma findIdx?_eq_none_of_not_mem {food : List Nat} {h : Nat} (hmem : h ∉ food) :
    food.findIdx? (fun f => f = h) = none :=
  findIdx?_aux_eq_none_of_not_mem food 0 hmem

lemma transformSnake_inert {food hazards : List Nat} {s : Snake}
    (hf : s.health ≠ 0 → s.head ∉ food) (hh : s.health ≠ 0 → s.head ∉ hazards) :
    transformSnake food hazards s = s := by
  unfold transformSnake
  by_cases hs : s.health = 0
  · rw [if_pos hs]
  · rw [if_neg hs]
    simp only [findIdx?_eq_none_of_not_mem (hf hs)]
    rw [if_neg (hh hs)]

lemma fhp_inert {food hazards : List Nat} :
    ∀ (k : Nat) (l : List Snake),
      (∀ s ∈ l, s.health ≠ 0 → s.head ∉ food ∧ s.head ∉ hazards) →
      food_hazard_pass food hazards k l = (l, [], ∅) := by
  intro k l
  induction l generalizing k with
  | nil => intro _; rfl
  | cons s t ih =>
    intro hl
    have hs := hl s (List.mem_cons_self s t)
    have ht : ∀ s' ∈ t, s'.health ≠ 0 → s'.head ∉ food ∧ s'.head ∉ hazards :=
      fun s' hs' => hl s' (List.mem_cons_of_mem s hs')
    simp only [food_hazard_pass, ih (k + 1) ht]
    by_cases hdead : s.health = 0
    · rw [if_pos hdead]
    · rw [if_neg hdead]
      simp only [findIdx?_eq_none_of_not_mem ((hs hdead).1)]
      have hcond : ¬ (s.head ∈ hazards ∧ (transformSnake food hazards s).health = 0) :=
        fun hc => (hs hdead).2 hc.1
      rw [if_neg hcond]
      have : transformSnake food hazards s = s :=
        transformSnake_inert (fun h => (hs h).1) (fun h => (hs h).2)
      rw [this]
      simp

lemma mem_oob_kills {snakes : List Snake} {x : Nat} :
    x ∈ oob_kills snakes ↔
      x < snakes.length ∧ healthAt snakes x ≠ 0 ∧ headAt snakes x = usizeMax := by
  unfold oob_kills
  rw [Finset.mem_filter, Finset.mem_range]

lemma body_positions_get_eq_some {snakes : List Snake} {pos k : Nat}
    (h : body_positions_get snakes pos = some k) :
    k < snakes.length ∧ healthAt snakes k ≠ 0 ∧
      pos ∈ (((snakes.get? k).map Snake.body).getD []).drop 1 := by
  unfold body_positions_get at h
  have := foldl_overwrite_eq_some
    (p := fun i => healthAt snakes i ≠ 0 ∧
      pos ∈ (((snakes.get? i).map Snake.body).getD []).drop 1)
    snakes.length k h
  exact ⟨this.1, this.2.1, this.2.2⟩

lemma body_positions_get_isSome {snakes : List Snake} {pos j : Nat}
    (hj : j < snakes.length) (hjv : healthAt snakes j ≠ 0)
    (hjp : pos ∈ (((snakes.get? j).map Snake.body).getD []).drop 1) :
    ∃ k, body_positions_get snakes pos = some k ∧ k < snakes.length ∧
      healthAt snakes k ≠ 0 ∧ pos ∈ (((snakes.get? k).map Snake.body).getD []).drop 1 := by
  unfold body_positions_get
  obtain ⟨k, hk, hkn, hpk⟩ := foldl_overwrite_isSome
    (p := fun i => healthAt snakes i ≠ 0 ∧
      pos ∈ (((snakes.get? i).map Snake.body).getD []).drop 1)
    snakes.length ⟨j, hj, hjv, hjp⟩
  exact ⟨k, hk, hkn, hpk.1, hpk.2⟩

lemma mem_body_collision_kills {snakes : List Snake} {x : Nat} :
    x ∈ body_collision_kills snakes ↔
      healthAt snakes x ≠ 0 ∧
        (headAt snakes x ∈ (((snakes.get? x).map Snake.body).getD []).drop 1 ∨
          ∃ j, j < snakes.length ∧ j ≠ x ∧ healthAt snakes j ≠ 0 ∧
            headAt snakes x ∈ (((snakes.get? j).map Snake.body).getD []).drop 1) := by
  unfold body_collision_kills
  rw [Finset.mem_filter, Finset.mem_range]
  constructor
  · rintro ⟨hxn, hkill⟩
    unfold body_kill at hkill
    by_cases hx : healthAt snakes x = 0
    · rw [if_pos hx] at hkill; cases hkill
    · rw [if_neg hx] at hkill
      refine ⟨hx, ?_⟩
      by_cases hself : headAt snakes x ∈ (((snakes.get? x).map Snake.body).getD []).drop 1
      · exact Or.inl hself
      · rw [if_neg hself] at hkill
        cases howner : body_positions_get snakes (headAt snakes x) with
        | none => rw [howner] at hkill; cases hkill
        | some k =>
          rw [howner] at hkill
          obtain ⟨hkn, hkv, hkp⟩ := body_positions_get_eq_some howner
          refine Or.inr ⟨k, hkn, ?_, hkv, hkp⟩
          intro hkx
          subst hkx
          simp at hkill
  · rintro ⟨hx, hdisj⟩
    refine ⟨lt_length_of_healthAt_ne_zero hx, ?_⟩
    unfold body_kill
    rw [if_neg hx]
    by_cases hself : headAt snakes x ∈ (((snakes.get? x).map Snake.body).getD []).drop 1
    · rw [if_pos hself]
    · rw [if_neg hself]
      rcases hdisj with hdisj | ⟨j, hjn, hjx, hjv, hjp⟩
      · exact absurd hdisj hself
      · obtain ⟨k, hk, hkn, hkv, hkp⟩ := body_positions_get_isSome hjn hjv hjp
        rw [hk]
        have hkx : k ≠ x := by
          intro hc
          subst hc
          exact hself hkp
        simp [hkx]

lemma resolve_eq_some {gs : GameState} {food1 : List Nat}
    (hfood : remove_eaten_food gs.food (food_hazard_pass gs.food gs.hazards 0 gs.snakes).2.1 =
      some food1) :
    resolve_collisions gs =
      some { gs with
               snakes := apply_kills (food_hazard_pass gs.food gs.hazards 0 gs.snakes).1
                 (oob_kills gs.snakes ∪ (food_hazard_pass gs.food gs.hazards 0 gs.snakes).2.2 ∪
                   head_collision_kills (food_hazard_pass gs.food gs.hazards 0 gs.snakes).1 ∪
                   body_collision_kills (food_hazard_pass gs.food gs.hazards 0 gs.snakes).1)
               food := food1 } := by
  simp only [resolve_collisions, hfood]

lemma resolve_snakes {gs s' : GameState} (h : resolve_collisions gs = some s') :
    s'.snakes = apply_kills (food_hazard_pass gs.food gs.hazards 0 gs.snakes).1
      (oob_kills gs.snakes ∪ (food_hazard_pass gs.food gs.hazards 0 gs.snakes).2.2 ∪
        head_collision_kills (food_hazard_pass gs.food gs.hazards 0 gs.snakes).1 ∪
        body_collision_kills (food_hazard_pass gs.food gs.hazards 0 gs.snakes).1) := by
  cases hrm : remove_eaten_food gs.food (food_hazard_pass gs.food gs.hazards 0 gs.snakes).2.1 with
  | none =>
    unfold resolve_collisions at h
    simp only [hrm] at h
    cases h
  | some food1 =>
    rw [resolve_eq_some hrm] at h
    cases h
    rfl

lemma healthAt_resolved_of_head_kill {gs s' : GameState}
    (h : resolve_collisions gs = some s') {x : Nat}
    (hx : x ∈ head_collision_kills (food_hazard_pass gs.food gs.hazards 0 gs.snakes).1) :
    healthAt s'.snakes x = 0 := by
  rw [resolve_snakes h, healthAt_apply_kills]
  have hxv : healthAt (food_hazard_pass gs.food gs.hazards 0 gs.snakes).1 x ≠ 0 :=
    (mem_head_collision_kills_le.mp hx).1
  have hxn : x < (food_hazard_pass gs.food gs.hazards 0 gs.snakes).1.length :=
    lt_length_of_healthAt_ne_zero hxv
  rw [if_pos ⟨by simp [Finset.mem_union, hx], hxn⟩]

/-- Claim C3 (amended): after all agents have advanced, for any living
agent `x` of the post-food/hazard snake list `t`, (a) if some other
living agent shares `x`'s head cell and is at least as long, then
`resolve_collisions` kills `x` — so in a colliding group everyone whose
length is not the unique strict maximum dies, in particular all of them
when the lengths are tied; and (b) if every living agent colliding with
`x` (shared head cell or swapped heads) is strictly shorter, the
head-to-head phase does not kill `x`.  (The claim as frozen instead said
only the agents of strictly minimal length die, which the counterexample
refutes.) -/
theorem head_to_head_kills_all_but_longest
    (gs s' : GameState) (hres : resolve_collisions gs = some s')
    (x : Nat) (t : List Snake)
    (ht : t = (food_hazard_pass gs.food gs.hazards 0 gs.snakes).1)
    (hx : healthAt t x ≠ 0) :
    ((∃ y, y < t.length ∧ y ≠ x ∧ healthAt t y ≠ 0 ∧ headAt t y = headAt t x ∧
        lengthAt t x ≤ lengthAt t y) → healthAt s'.snakes x = 0) ∧
    ((∀ y, y < t.length → y ≠ x → healthAt t y ≠ 0 → collides t x y →
        lengthAt t y < lengthAt t x) → x ∉ head_collision_kills t) := by
  constructor
  · rintro ⟨y, hyn, hyx, hy, hhead, hle⟩
    have hmem : x ∈ head_collision_kills t :=
      mem_head_collision_kills_le.mpr ⟨hx, y, hyn, hyx, hy, Or.inl hhead.symm, hle⟩
    rw [ht] at hmem
    exact healthAt_resolved_of_head_kill hres hmem
  · intro hall hmem
    obtain ⟨-, y, hyn, hyx, hy, hcol, hle⟩ := mem_head_collision_kills_le.mp hmem
    exact absurd hle (not_le_of_lt (hall y hyn hyx hy hcol))

/-- Board refuting claim C3 as frozen: three living snakes of lengths 2,
3 and 4 whose heads all occupy cell 12 of a 5×5 board. -/
def c3cex : GameState :=
  { width := 5, height := 5,
    snakes := [{ id := "a", body := [12, 11], health := 90 },
               { id := "b", body := [12, 13, 14], health := 90 },
               { id := "c", body := [12, 7, 2, 3], health := 90 }],
    food := [], hazards := [] }

/-- Claim C3 counterexample: in a three-snake group on one head cell with
lengths 2 < 3 < 4, the middle snake (index 1) is not of strictly
shortest length, yet `resolve_collisions` kills it (the code kills every
snake shorter than the group maximum, not only the strictly shortest). -/
theorem c3_counterexample :
    headAt c3cex.snakes 0 = headAt c3cex.snakes 1 ∧
    headAt c3cex.snakes 1 = headAt c3cex.snakes 2 ∧
    healthAt c3cex.snakes 0 ≠ 0 ∧ healthAt c3cex.snakes 1 ≠ 0 ∧ healthAt c3cex.snakes 2 ≠ 0 ∧
    lengthAt c3cex.snakes 0 < lengthAt c3cex.snakes 1 ∧
    (resolve_collisions c3cex).map (fun s' => healthAt s'.snakes 1) = some 0 := by
  decide

/-- Two equal-length snakes meeting head-on at cell 12 of a 5×5 board,
after both have advanced. -/
def c3wit : GameState :=
  { width := 5, height := 5,
    snakes := [{ id := "a", body := [12, 11], health := 89 },
               { id := "b", body := [12, 13], health := 89 }],
    food := [], hazards := [] }

theorem head_to_head_kills_all_but_longest_witness :
    healthAt ((resolve_collisions c3wit).getD c3wit).snakes 0 = 0 := by
  have h := head_to_head_kills_all_but_longest c3wit
    ((resolve_collisions c3wit).getD c3wit) (by decide) 0
    ((food_hazard_pass c3wit.food c3wit.hazards 0 c3wit.snakes).1) rfl (by decide)
  exact h.1 ⟨1, by decide, by decide, by decide, by decide, by decide⟩

/-- Claim C10: if, after all agents have advanced, two living agents have
swapped head positions (each one's new head cell is the other's neck
cell) while their heads occupy different cells, `resolve_collisions`
treats the pair as a head-to-head collision: the agent whose length does
not exceed the other's dies — so the shorter dies, and both die when the
lengths are equal.  (`t` is the snake list after the food/hazard phase,
whose healths and lengths the collision loop reads.) -/
theorem neck_swap_is_head_collision
    (gs s' : GameState) (hres : resolve_collisions gs = some s')
    (i j : Nat) (t : List Snake)
    (ht : t = (food_hazard_pass gs.food gs.hazards 0 gs.snakes).1)
    (hij : i ≠ j) (hi : healthAt t i ≠ 0) (hj : healthAt t j ≠ 0)
    (hheads : headAt t i ≠ headAt t j)
    (hni : neckAt t i = some (headAt t j)) (hnj : neckAt t j = some (headAt t i)) :
    (lengthAt t i ≤ lengthAt t j → healthAt s'.snakes i = 0) ∧
    (lengthAt t j ≤ lengthAt t i → healthAt s'.snakes j = 0) := by
  constructor
  · intro hle
    have hmem : i ∈ head_collision_kills t :=
      mem_head_collision_kills_le.mpr
        ⟨hi, j, lt_length_of_healthAt_ne_zero hj, fun hc => hij hc.symm, hj,
          Or.inr ⟨hni, hnj⟩, hle⟩
    rw [ht] at hmem
    exact healthAt_resolved_of_head_kill hres hmem
  · intro hle
    have hmem : j ∈ head_collision_kills t :=
      mem_head_collision_kills_le.mpr
        ⟨hj, i, lt_length_of_healthAt_ne_zero hi, hij, hi,
          Or.inr ⟨hnj, hni⟩, hle⟩
    rw [ht] at hmem
    exact healthAt_resolved_of_head_kill hres hmem

/-- Two equal-length snakes that swapped head positions in the same ply:
snake `a` moved 6 → 7 and snake `b` moved 7 → 6 on a 5×5 board. -/
def c10wit : GameState :=
  { width := 5, height := 5,
    snakes := [{ id := "a", body := [7, 6, 5], health := 89 },
               { id := "b", body := [6, 7, 8], health := 89 }],
    food := [], hazards := [] }

theorem neck_swap_is_head_collision_witness :
    healthAt ((resolve_collisions c10wit).getD c10wit).snakes 0 = 0 ∧
    healthAt ((resolve_collisions c10wit).getD c10wit).snakes 1 = 0 := by
  have h := neck_swap_is_head_collision c10wit
    ((resolve_collisions c10wit).getD c10wit) (by decide) 0 1
    ((food_hazard_pass c10wit.food c10wit.hazards 0 c10wit.snakes).1) rfl
    (by decide) (by decide) (by decide) (by decide) (by decide) (by decide)
  exact ⟨h.1 (by decide), h.2 (by decide)⟩

/-! ### Claim C1: per-ply health accounting -/

lemma get?_set_self {α : Type} : ∀ (l : List α) (i : Nat) (a : α), i < l.length →
    (l.set i a).get? i = some a := by
  intro l
  induction l with
  | nil => intro i a h; simp at h
  | cons b t ih =>
    intro i a h
    cases i with
    | zero => rfl
    | succ j =>
      simp only [List.set, List.get?]
      exact ih j a (by simpa using h)

lemma get?_set_ne {α : Type} : ∀ (l : List α) (i j : Nat) (a : α), i ≠ j →
    (l.set i a).get? j = l.get? j := by
  intro l
  induction l with
  | nil => intro i j a _; simp
  | cons b t ih =>
    intro i j a hij
    cases i with
    | zero =>
      cases j with
      | zero => exact absurd rfl hij
      | succ k => rfl
    | succ i' =>
      cases j with
      | zero => rfl
      | succ k =>
        simp only [List.set, List.get?]
        exact ih i' k a (by omega)

lemma move_snake_eq {gs : GameState} {i : Nat} {d : Direction} {snake : Snake}
    (hget : gs.snakes.get? i = some snake) (halive : snake.health ≠ 0)
    (hhead : snake.head ≠ usizeMax) :
    move_snake gs i d =
      { gs with snakes := gs.snakes.set i { snake with
          body := (stepIndex gs.width (gs.width * gs.height) snake.head d ::
            snake.body).dropLast
          health := snake.health - 1 } } := by
  unfold move_snake
  rw [hget]
  dsimp only
  rw [if_neg halive, if_neg hhead]

lemma head_body_ne_nil {snake : Snake} (hhead : snake.head ≠ usizeMax) :
    snake.body ≠ [] := by
  intro hc
  apply hhead
  rw [Snake.head, hc]
  rfl

lemma headD_dropLast_cons {a d : Nat} {l : List Nat} (hl : l ≠ []) :
    ((a :: l).dropLast).headD d = a := by
  cases l with
  | nil => exact absurd rfl hl
  | cons b t => rfl

/-- Claim C1 (amended): advancing a living on-board agent and resolving,
with the destination on the board, not on food, and the agent suffering
no head-to-head and no body collision, decreases its health by 1 when
the destination is not a hazard cell, and by 1 + 15 = 16 when it is (not
by 15 alone): `move_snake` always subtracts 1 and `resolve_collisions`
then subtracts a further 15 for the hazard, each subtraction saturating
at 0.  (The frozen claim said the hazard case loses 15 only, which the
counterexample refutes.) -/
theorem health_after_move_and_resolve
    (gs : GameState) (i : Nat) (d : Direction) (s' : GameState) (snake : Snake)
    (hget : gs.snakes.get? i = some snake)
    (halive : snake.health ≠ 0)
    (hhead : snake.head ≠ usizeMax)
    (hnew : stepIndex gs.width (gs.width * gs.height) snake.head d ≠ usizeMax)
    (hfood : stepIndex gs.width (gs.width * gs.height) snake.head d ∉ gs.food)
    (hres : resolve_collisions (move_snake gs i d) = some s')
    (hnohead : i ∉ head_collision_kills
      (food_hazard_pass (move_snake gs i d).food (move_snake gs i d).hazards 0
        (move_snake gs i d).snakes).1)
    (hnobody : i ∉ body_collision_kills
      (food_hazard_pass (move_snake gs i d).food (move_snake gs i d).hazards 0
        (move_snake gs i d).snakes).1) :
    healthAt s'.snakes i =
      (snake.health - 1) -
        (if stepIndex gs.width (gs.width * gs.height) snake.head d ∈ gs.hazards then 15
         else 0) := by
  have hlen : i < gs.snakes.length := by
    by_contra hc
    rw [List.get?_eq_none.mpr (le_of_not_lt hc)] at hget
    cases hget
  set newp := stepIndex gs.width (gs.width * gs.height) snake.head d with hnewp
  set newSnake : Snake :=
    { snake with body := (newp :: snake.body).dropLast, health := snake.health - 1 }
    with hnewSnake
  have hmove : move_snake gs i d = { gs with snakes := gs.snakes.set i newSnake } :=
    move_snake_eq hget halive hhead
  have hmfood : (move_snake gs i d).food = gs.food := by rw [hmove]
  have hmhaz : (move_snake gs i d).hazards = gs.hazards := by rw [hmove]
  have hmsnakes : (move_snake gs i d).snakes = gs.snakes.set i newSnake := by rw [hmove]
  have hget1 : (move_snake gs i d).snakes.get? i = some newSnake := by
    rw [hmsnakes]; exact get?_set_self gs.snakes i newSnake (by omega)
  have hnewhead : newSnake.head = newp := by
    rw [hnewSnake, Snake.head]
    exact headD_dropLast_cons (head_body_ne_nil hhead)
  -- health of snake i after the food/hazard pass
  have hsn1get : (food_hazard_pass (move_snake gs i d).food (move_snake gs i d).hazards 0
      (move_snake gs i d).snakes).1.get? i = some (transformSnake gs.food gs.hazards newSnake) := by
    rw [fhp_fst, List.get?_map, hget1, hmfood, hmhaz]
    rfl
  have htrans : (transformSnake gs.food gs.hazards newSnake).health =
      (snake.health - 1) - (if newp ∈ gs.hazards then 15 else 0) := by
    unfold transformSnake
    by_cases hdead : newSnake.health = 0
    · rw [if_pos hdead]
      have he : newSnake.health = snake.health - 1 := rfl
      rw [he] at hdead ⊢
      rw [hdead, Nat.zero_sub]
    · rw [if_neg hdead]
      rw [hnewhead]
      simp only [findIdx?_eq_none_of_not_mem hfood]
      by_cases hz : newp ∈ gs.hazards
      · simp only [if_pos hz]
      · simp only [if_neg hz]
        show snake.health - 1 = snake.health - 1 - 0
        omega
  have hh1 : healthAt (food_hazard_pass (move_snake gs i d).food (move_snake gs i d).hazards 0
      (move_snake gs i d).snakes).1 i =
      (snake.health - 1) - (if newp ∈ gs.hazards then 15 else 0) := by
    unfold healthAt
    rw [hsn1get]
    simpa using htrans
  rw [resolve_snakes hres, healthAt_apply_kills]
  by_cases hval : healthAt (food_hazard_pass (move_snake gs i d).food
      (move_snake gs i d).hazards 0 (move_snake gs i d).snakes).1 i = 0
  · rw [← hh1]
    by_cases hk : i ∈ (oob_kills (move_snake gs i d).snakes ∪
        (food_hazard_pass (move_snake gs i d).food (move_snake gs i d).hazards 0
          (move_snake gs i d).snakes).2.2 ∪
        head_collision_kills (food_hazard_pass (move_snake gs i d).food
          (move_snake gs i d).hazards 0 (move_snake gs i d).snakes).1 ∪
        body_collision_kills (food_hazard_pass (move_snake gs i d).food
          (move_snake gs i d).hazards 0 (move_snake gs i d).snakes).1) ∧
        i < (food_hazard_pass (move_snake gs i d).food (move_snake gs i d).hazards 0
          (move_snake gs i d).snakes).1.length
    · rw [if_pos hk, hval]
    · rw [if_neg hk]
  · have hoob : i ∉ oob_kills (move_snake gs i d).snakes := by
      intro hc
      obtain ⟨-, -, hmax⟩ := mem_oob_kills.mp hc
      unfold headAt at hmax
      rw [hget1] at hmax
      simp only [Option.map_some', Option.getD_some] at hmax
      rw [hnewhead] at hmax
      exact hnew hmax
    have hkill1 : i ∉ (food_hazard_pass (move_snake gs i d).food (move_snake gs i d).hazards 0
        (move_snake gs i d).snakes).2.2 := by
      intro hc
      have := (fhp_kills_health (move_snake gs i d).food (move_snake gs i d).hazards 0
        (move_snake gs i d).snakes i hc).2
      simp only [Nat.sub_zero] at this
      exact hval this
    rw [if_neg ?hc]
    · exact hh1
    case hc =>
      rintro ⟨hk, -⟩
      simp only [Finset.mem_union] at hk
      rcases hk with ((hk | hk) | hk) | hk
      · exact hoob hk
      · exact hkill1 hk
      · exact hnohead hk
      · exact hnobody hk

/-- A living snake at cell 12 of a 5×5 board with full health about to
step onto the hazard cell 7. -/
def c1cex : GameState :=
  { width := 5, height := 5,
    snakes := [{ id := "a", body := [12, 13], health := 100 }],
    food := [], hazards := [7] }

/-- Claim C1 counterexample: a 100-health snake stepping onto a hazard
cell (no food, no collision) ends the ply at 84 health, not the 100 − 15
= 85 that "health decreases by 15 instead […] not both" predicts: the
code subtracts 1 in `move_snake` and then 15 more in
`resolve_collisions`. -/
theorem c1_counterexample :
    stepIndex c1cex.width (c1cex.width * c1cex.height) 12 Direction.up ∈ c1cex.hazards ∧
    c1cex.food = [] ∧
    (resolve_collisions (move_snake c1cex 0 Direction.up)).map
      (fun s' => healthAt s'.snakes 0) = some 84 ∧
    (84 : Nat) ≠ 100 - 15 := by
  decide

theorem health_after_move_and_resolve_witness :
    healthAt ((resolve_collisions (move_snake c1cex 0 Direction.up)).getD c1cex).snakes 0 = 84 := by
  have h := health_after_move_and_resolve c1cex 0 Direction.up
    ((resolve_collisions (move_snake c1cex 0 Direction.up)).getD c1cex)
    { id := "a", body := [12, 13], health := 100 }
    (by decide) (by decide) (by decide) (by decide) (by decide) (by decide)
    (by decide) (by decide)
  exact h.trans (by decide)

/-! ### Claim C9: the snake list is preserved -/

lemma transformSnake_id {food hazards : List Nat} {s : Snake} :
    (transformSnake food hazards s).id = s.id := by
  unfold transformSnake
  by_cases hs : s.health = 0
  · rw [if_pos hs]
  · rw [if_neg hs]
    cases hfi : food.findIdx? (fun f => f = s.head) <;>
      by_cases hz : s.head ∈ hazards <;> simp [hfi, hz]

lemma transformSnake_body {food hazards : List Nat} {s : Snake} :
    (transformSnake food hazards s).body = s.body ∨
      (transformSnake food hazards s).body = growBody s.body := by
  unfold transformSnake
  by_cases hs : s.health = 0
  · rw [if_pos hs]; exact Or.inl rfl
  · rw [if_neg hs]
    cases hfi : food.findIdx? (fun f => f = s.head) with
    | none => by_cases hz : s.head ∈ hazards <;> simp [hfi, hz]
    | some k =>
      by_cases hz : s.head ∈ hazards <;> simp [hfi, hz]

lemma move_snake_length {gs : GameState} {i : Nat} {d : Direction} :
    (move_snake gs i d).snakes.length = gs.snakes.length := by
  unfold move_snake
  cases hget : gs.snakes.get? i with
  | none => rfl
  | some snake =>
    dsimp only
    by_cases h1 : snake.health = 0
    · rw [if_pos h1]
    · rw [if_neg h1]
      by_cases h2 : snake.head = usizeMax
      · rw [if_pos h2]
      · rw [if_neg h2]
        exact List.length_set gs.snakes _ _

lemma move_snake_idAt {gs : GameState} {i : Nat} {d : Direction} :
    ∀ k, idAt (move_snake gs i d).snakes k = idAt gs.snakes k := by
  intro k
  unfold move_snake
  cases hget : gs.snakes.get? i with
  | none => rfl
  | some snake =>
    dsimp only
    by_cases h1 : snake.health = 0
    · rw [if_pos h1]
    · rw [if_neg h1]
      by_cases h2 : snake.head = usizeMax
      · rw [if_pos h2]
      · rw [if_neg h2]
        unfold idAt
        by_cases hk : i = k
        · subst hk
          have hlen : i < gs.snakes.length := by
            by_contra hc
            rw [List.get?_eq_none.mpr (le_of_not_lt hc)] at hget
            cases hget
          rw [get?_set_self gs.snakes i _ hlen, hget]
          rfl
        · rw [get?_set_ne gs.snakes i k _ hk]

/-- Claim C9: both board operations preserve the number, order and
identifiers of the agents: `move_snake` touches only the moved agent's
body and health, and `resolve_collisions` (when it returns) only updates
healths, grows eaters by one duplicated tail segment, and keeps the
bodies of dead agents in place. -/
theorem agents_preserved (gs : GameState) (i : Nat) (d : Direction) (s' : GameState)
    (hres : resolve_collisions gs = some s') :
    (move_snake gs i d).snakes.length = gs.snakes.length ∧
    (∀ k, idAt (move_snake gs i d).snakes k = idAt gs.snakes k) ∧
    s'.snakes.length = gs.snakes.length ∧
    (∀ k, idAt s'.snakes k = idAt gs.snakes k) ∧
    (∀ k, bodyAt s'.snakes k = bodyAt gs.snakes k ∨
      bodyAt s'.snakes k = (bodyAt gs.snakes k).map growBody) := by
  have hsn := resolve_snakes hres
  refine ⟨move_snake_length, move_snake_idAt, ?_, ?_, ?_⟩
  · rw [hsn, apply_kills_length, fhp_fst, List.length_map]
  · intro k
    rw [hsn, idAt_apply_kills]
    unfold idAt
    rw [fhp_fst, List.get?_map]
    cases gs.snakes.get? k with
    | none => rfl
    | some s =>
      simp only [Option.map_some']
      rw [transformSnake_id]
  · intro k
    rw [hsn, bodyAt_apply_kills]
    unfold bodyAt
    rw [fhp_fst, List.get?_map]
    cases gs.snakes.get? k with
    | none => exact Or.inl rfl
    | some s =>
      simp only [Option.map_some']
      rcases @transformSnake_body gs.food gs.hazards s with h | h
      · exact Or.inl (by rw [h])
      · exact Or.inr (by rw [h])

theorem agents_preserved_witness :
    ((resolve_collisions c1cex).getD c1cex).snakes.length = c1cex.snakes.length ∧
    idAt ((resolve_collisions c1cex).getD c1cex).snakes 0 = idAt c1cex.snakes 0 := by
  have h := agents_preserved c1cex 0 Direction.up
    ((resolve_collisions c1cex).getD c1cex) (by decide)
  exact ⟨h.2.2.1, h.2.2.2.1 0⟩

/-! ### Claim C4: two heads on one food cell -/

/-- Two living snakes whose heads both occupy the only food cell 7 of a
5×5 board (as after a ply in which both advanced onto it). -/
def c4cex : GameState :=
  { width := 5, height := 5,
    snakes := [{ id := "a", body := [7, 6], health := 50 },
               { id := "b", body := [7, 8], health := 50 }],
    food := [7], hazards := [] }

/-- The same double-consumption with a second, uneaten food cell 24 in
the list after the eaten one. -/
def c4cex2 : GameState :=
  { width := 5, height := 5,
    snakes := [{ id := "a", body := [7, 6], health := 50 },
               { id := "b", body := [7, 8], health := 50 }],
    food := [7, 24], hazards := [] }

/-- Claim C4 is right and the code is wrong: when two living agents'
heads land on the same food cell, the food loop lets BOTH eat (both
grow to length 3 and reset to health 100) and pushes the same food index
twice; the removal loop then calls `swap_remove` twice with a stale
index — a panic (modelled as `none`) when the food was the last list
entry, and the removal of the unrelated food cell 24 otherwise. -/
theorem c4_double_consumption_bug :
    resolve_collisions c4cex = none ∧
    (food_hazard_pass c4cex.food c4cex.hazards 0 c4cex.snakes).2.1 = [0, 0] ∧
    healthAt (food_hazard_pass c4cex.food c4cex.hazards 0 c4cex.snakes).1 0 = 100 ∧
    healthAt (food_hazard_pass c4cex.food c4cex.hazards 0 c4cex.snakes).1 1 = 100 ∧
    lengthAt (food_hazard_pass c4cex.food c4cex.hazards 0 c4cex.snakes).1 0 = 3 ∧
    lengthAt (food_hazard_pass c4cex.food c4cex.hazards 0 c4cex.snakes).1 1 = 3 ∧
    (resolve_collisions c4cex2).map GameState.food = some [] := by
  decide

/-! ### Claim C2: idempotence of `resolve_collisions` -/

lemma neckAt_apply_kills {l : List Snake} {kills : Finset Nat} {i : Nat} :
    neckAt (apply_kills l kills) i = neckAt l i := by
  unfold neckAt
  rw [apply_kills_get?]
  cases hl : l.get? i with
  | none => rfl
  | some s => by_cases hk : i ∈ kills <;> simp [hk]

lemma lengthAt_apply_kills {l : List Snake} {kills : Finset Nat} {i : Nat} :
    lengthAt (apply_kills l kills) i = lengthAt l i := by
  unfold lengthAt
  rw [apply_kills_get?]
  cases hl : l.get? i with
  | none => rfl
  | some s => by_cases hk : i ∈ kills <;> simp [hk, Snake.length]

lemma apply_kills_empty {l : List Snake} : apply_kills l ∅ = l := by
  unfold apply_kills
  suffices h : ∀ (k : Nat) (l : List Snake), apply_kills_aux ∅ k l = l by exact h 0 l
  intro k l
  induction l generalizing k with
  | nil => rfl
  | cons s t ih => simp [apply_kills_aux, ih]

lemma apply_kills_mem {l : List Snake} {kills : Finset Nat} {s : Snake}
    (hs : s ∈ apply_kills l kills) :
    ∃ s₀ ∈ l, s = s₀ ∨ s = { s₀ with health := 0 } := by
  unfold apply_kills at hs
  suffices h : ∀ (k : Nat) (l : List Snake), s ∈ apply_kills_aux kills k l →
      ∃ s₀ ∈ l, s = s₀ ∨ s = { s₀ with health := 0 } by exact h 0 l hs
  intro k l
  induction l generalizing k with
  | nil => intro h; simp [apply_kills_aux] at h
  | cons a t ih =>
    intro h
    simp only [apply_kills_aux, List.mem_cons] at h
    rcases h with h | h
    · by_cases hk : k ∈ kills
      · rw [if_pos hk] at h
        exact ⟨a, List.mem_cons_self a t, Or.inr h⟩
      · rw [if_neg hk] at h
        exact ⟨a, List.mem_cons_self a t, Or.inl h⟩
    · obtain ⟨s₀, hs₀, hcase⟩ := ih (k + 1) h
      exact ⟨s₀, List.mem_cons_of_mem a hs₀, hcase⟩

lemma alive_after_kills {l : List Snake} {kills : Finset Nat} {i : Nat}
    (h : healthAt (apply_kills l kills) i ≠ 0) :
    healthAt l i ≠ 0 ∧ i ∉ kills := by
  rw [healthAt_apply_kills] at h
  by_cases hcond : i ∈ kills ∧ i < l.length
  · rw [if_pos hcond] at h
    exact absurd rfl h
  · rw [if_neg hcond] at h
    have hlen : i < l.length := by
      have := lt_length_of_healthAt_ne_zero h
      exact this
    refine ⟨h, fun hk => hcond ⟨hk, hlen⟩⟩

lemma collides_apply_kills {l : List Snake} {kills : Finset Nat} {i j : Nat} :
    collides (apply_kills l kills) i j ↔ collides l i j := by
  unfold collides
  rw [headAt_apply_kills, headAt_apply_kills, neckAt_apply_kills, neckAt_apply_kills]

lemma rawBody_apply_kills {l : List Snake} {kills : Finset Nat} {x : Nat} :
    ((((apply_kills l kills).get? x).map Snake.body).getD []) =
      (((l.get? x).map Snake.body).getD []) := by
  have h := @bodyAt_apply_kills l kills x
  unfold bodyAt at h
  rw [h]

/-- Claim C2 (amended): `resolve_collisions` is idempotent on boards
where no living agent's head lies on a food cell or a hazard cell: once
the pass has applied all deaths, a second pass eats nothing, damages
nothing, and finds no new out-of-bounds, head-to-head or body collision
among the survivors.  (On a board with a living head on a hazard — or on
duplicated food — a second call changes the state again, refuting the
claim as frozen.) -/
theorem resolve_idempotent_without_food_or_hazard_heads
    (gs s' : GameState)
    (hquiet : ∀ s ∈ gs.snakes, s.health ≠ 0 → s.head ∉ gs.food ∧ s.head ∉ gs.hazards)
    (hres : resolve_collisions gs = some s') :
    resolve_collisions s' = some s' := by
  have hfhp : food_hazard_pass gs.food gs.hazards 0 gs.snakes = (gs.snakes, [], ∅) :=
    fhp_inert 0 gs.snakes hquiet
  have hrm : remove_eaten_food gs.food
      (food_hazard_pass gs.food gs.hazards 0 gs.snakes).2.1 = some gs.food := by
    rw [hfhp]
    rfl
  have hval := resolve_eq_some hrm
  rw [hres] at hval
  have hs'val : s' = { gs with
      snakes := apply_kills gs.snakes
        (oob_kills gs.snakes ∪ head_collision_kills gs.snakes ∪
          body_collision_kills gs.snakes)
      food := gs.food } := by
    have h := Option.some_injective _ hval
    rw [h, hfhp]
    dsimp only
    rw [Finset.union_empty]
  set KK : Finset Nat := oob_kills gs.snakes ∪ head_collision_kills gs.snakes ∪
    body_collision_kills gs.snakes with hKK
  have h_snakes : s'.snakes = apply_kills gs.snakes KK := by rw [hs'val]
  have h_food : s'.food = gs.food := by rw [hs'val]
  have h_haz : s'.hazards = gs.hazards := by rw [hs'val]
  have hquiet' : ∀ s ∈ s'.snakes, s.health ≠ 0 → s.head ∉ s'.food ∧ s.head ∉ s'.hazards := by
    intro s hs hh
    rw [h_snakes] at hs
    obtain ⟨s₀, hs₀, hcase⟩ := apply_kills_mem hs
    rcases hcase with heq | heq
    · rw [h_food, h_haz, heq]
      exact hquiet s₀ hs₀ (heq ▸ hh)
    · rw [heq] at hh
      exact absurd rfl hh
  have hfhp' : food_hazard_pass s'.food s'.hazards 0 s'.snakes = (s'.snakes, [], ∅) :=
    fhp_inert 0 s'.snakes hquiet'
  have hrm' : remove_eaten_food s'.food
      (food_hazard_pass s'.food s'.hazards 0 s'.snakes).2.1 = some s'.food := by
    rw [hfhp']
    rfl
  -- helper transports
  have halive : ∀ i, healthAt s'.snakes i ≠ 0 → healthAt gs.snakes i ≠ 0 ∧ i ∉ KK := by
    intro i hi
    rw [h_snakes] at hi
    exact alive_after_kills hi
  -- no out-of-bounds survivor
  have hoob : oob_kills s'.snakes = ∅ := by
    rw [Finset.eq_empty_iff_forall_not_mem]
    intro i hi
    obtain ⟨-, hiv, hmax⟩ := mem_oob_kills.mp hi
    obtain ⟨hgv, hiK⟩ := halive i hiv
    rw [h_snakes, headAt_apply_kills] at hmax
    refine hiK ?_
    rw [hKK]
    exact Finset.mem_union_left _ (Finset.mem_union_left _
      (mem_oob_kills.mpr ⟨lt_length_of_healthAt_ne_zero hgv, hgv, hmax⟩))
  -- no head-to-head collision among survivors
  have hhead : head_collision_kills s'.snakes = ∅ := by
    rw [Finset.eq_empty_iff_forall_not_mem]
    intro i hi
    obtain ⟨hiv, y, hyn, hyx, hyv, hcol, hle⟩ := mem_head_collision_kills_le.mp hi
    obtain ⟨hgi, hiK⟩ := halive i hiv
    obtain ⟨hgy, hyK⟩ := halive y hyv
    rw [h_snakes] at hyn hcol hle
    rw [apply_kills_length] at hyn
    rw [collides_apply_kills] at hcol
    rw [lengthAt_apply_kills, lengthAt_apply_kills] at hle
    refine hiK ?_
    rw [hKK]
    exact Finset.mem_union_left _ (Finset.mem_union_right _
      (mem_head_collision_kills_le.mpr ⟨hgi, y, hyn, hyx, hgy, hcol, hle⟩))
  -- no body collision among survivors
  have hbody : body_collision_kills s'.snakes = ∅ := by
    rw [Finset.eq_empty_iff_forall_not_mem]
    intro i hi
    obtain ⟨hiv, hdisj⟩ := mem_body_collision_kills.mp hi
    obtain ⟨hgi, hiK⟩ := halive i hiv
    refine hiK ?_
    rw [hKK]
    refine Finset.mem_union_right _ (mem_body_collision_kills.mpr ⟨hgi, ?_⟩)
    rcases hdisj with hself | ⟨j, hjn, hjx, hjv, hjp⟩
    · rw [h_snakes, headAt_apply_kills, rawBody_apply_kills] at hself
      exact Or.inl hself
    · obtain ⟨hgj, -⟩ := halive j hjv
      rw [h_snakes] at hjn hjp
      rw [apply_kills_length] at hjn
      rw [headAt_apply_kills, rawBody_apply_kills] at hjp
      exact Or.inr ⟨j, hjn, hjx, hgj, hjp⟩
  rw [resolve_eq_some hrm']
  rw [hfhp']
  simp only [hoob, hhead, hbody, Finset.union_empty, Finset.empty_union, apply_kills_empty]

/-- A living snake parked on a hazard cell: each `resolve_collisions`
call subtracts another 15 health. -/
def c2cexA : GameState :=
  { width := 5, height := 5,
    snakes := [{ id := "a", body := [12], health := 90 }],
    food := [], hazards := [12] }

/-- A living snake whose head cell appears twice in the food list: each
`resolve_collisions` call eats one copy and grows the snake again. -/
def c2cexB : GameState :=
  { width := 5, height := 5,
    snakes := [{ id := "a", body := [7, 6], health := 50 }],
    food := [7, 7], hazards := [] }

/-- Claim C2 counterexample: `resolve_collisions` is not idempotent for
all boards.  With a living head on a hazard the second call drains 15
more health (75 → 60); with the head on a duplicated food entry the
second call grows the snake again (length 3 → 4). -/
theorem c2_counterexample :
    (resolve_collisions c2cexA).map (fun s => healthAt s.snakes 0) = some 75 ∧
    ((resolve_collisions c2cexA).bind resolve_collisions).map
      (fun s => healthAt s.snakes 0) = some 60 ∧
    (75 : Nat) ≠ 60 ∧
    (resolve_collisions c2cexB).map (fun s => lengthAt s.snakes 0) = some 3 ∧
    ((resolve_collisions c2cexB).bind resolve_collisions).map
      (fun s => lengthAt s.snakes 0) = some 4 ∧
    (3 : Nat) ≠ 4 := by
  decide

/-- A board with no living head on food or hazards, one oncoming
head-to-head pair already resolved dead and one survivor. -/
def c2wit : GameState :=
  { width := 5, height := 5,
    snakes := [{ id := "a", body := [12, 13], health := 90 },
               { id := "b", body := [12, 11], health := 90 },
               { id := "c", body := [22, 21, 20], health := 77 }],
    food := [24], hazards := [4] }

theorem resolve_idempotent_without_food_or_hazard_heads_witness :
    resolve_collisions ((resolve_collisions c2wit).getD c2wit) =
      some ((resolve_collisions c2wit).getD c2wit) := by
  exact resolve_idempotent_without_food_or_hazard_heads c2wit
    ((resolve_collisions c2wit).getD c2wit) (by decide) (by decide)

/-! ### Claim C5: safe moves -/

/-- Spec-side destination of a move, following the claim's words: the
head cell read as row-major coordinates, stepped orthogonally; `none`
when the destination leaves the board. -/
def coordDest (width height head : Nat) : Direction → Option Nat :=
  fun d =>
    let x := head % width
    let y := head / width
    match d with
    | Direction.up => if 1 ≤ y then some ((y - 1) * width + x) else none
    | Direction.down => if y + 1 < height then some ((y + 1) * width + x) else none
    | Direction.left => if 1 ≤ x then some (y * width + (x - 1)) else none
    | Direction.right => if x + 1 < width then some (y * width + (x + 1)) else none

lemma stepIndex_eq_coordDest {width height head : Nat} (hon : head < width * height)
    (d : Direction) :
    stepIndex width (width * height) head d = (coordDest width height head d).getD usizeMax ∧
    ∀ dest, coordDest width height head d = some dest → dest < width * height := by
  have hw : 0 < width := by
    rcases Nat.eq_zero_or_pos width with h0 | h
    · rw [h0] at hon; simp at hon
    · exact h
  have hd := Nat.div_add_mod head width
  have hx := Nat.mod_lt head hw
  have hyh : head / width < height := Nat.div_lt_of_lt_mul hon
  cases d with
  | up =>
    simp only [stepIndex, coordDest]
    have hy1 : width ≤ head ↔ 1 ≤ head / width := by
      rw [Nat.le_div_iff_mul_le hw, one_mul]
    by_cases hc : width ≤ head
    · have h1 : 1 ≤ head / width := hy1.mp hc
      rw [if_pos hc, if_pos h1]
      have hsm : (head / width - 1) * width = (head / width) * width - width := by
        rw [Nat.sub_mul, one_mul]
      have hcm : width * (head / width) = (head / width) * width := Nat.mul_comm _ _
      have hge : width ≤ (head / width) * width := by
        calc width = 1 * width := (one_mul width).symm
        _ ≤ (head / width) * width := Nat.mul_le_mul_right width h1
      have hval : (head / width - 1) * width + head % width = head - width := by omega
      constructor
      · simp only [Option.getD_some]
        omega
      · intro dest hdest
        have : dest = (head / width - 1) * width + head % width := by
          cases hdest; rfl
        omega
    · rw [if_neg hc, if_neg (fun h1 => hc (hy1.mpr h1))]
      exact ⟨rfl, fun dest hdest => by cases hdest⟩
  | down =>
    simp only [stepIndex, coordDest]
    have hms : width * (head / width + 1) = width * (head / width) + width := Nat.mul_succ _ _
    have hsm : (head / width + 1) * width = width * (head / width + 1) := Nat.mul_comm _ _
    have hiff : head + width < width * height ↔ head / width + 1 < height := by
      constructor
      · intro hcc
        have hle : width * (head / width + 1) ≤ head + width := by omega
        exact Nat.lt_of_mul_lt_mul_left (lt_of_le_of_lt hle hcc)
      · intro hcc
        have h2 : head / width + 2 ≤ height := hcc
        have hle : width * (head / width + 2) ≤ width * height := Nat.mul_le_mul_left width h2
        have hms2 : width * (head / width + 2) = width * (head / width + 1) + width :=
          Nat.mul_succ _ _
        omega
    by_cases hc : head + width < width * height
    · rw [if_pos hc, if_pos (hiff.mp hc)]
      have hval : (head / width + 1) * width + head % width = head + width := by omega
      constructor
      · simp only [Option.getD_some]
        omega
      · intro dest hdest
        have : dest = (head / width + 1) * width + head % width := by cases hdest; rfl
        omega
    · rw [if_neg hc, if_neg (fun h1 => hc (hiff.mpr h1))]
      exact ⟨rfl, fun dest hdest => by cases hdest⟩
  | left =>
    simp only [stepIndex, coordDest]
    have hcm : width * (head / width) = (head / width) * width := Nat.mul_comm _ _
    by_cases hc : head % width ≠ 0
    · rw [if_pos hc, if_pos (by omega : 1 ≤ head % width)]
      have hval : (head / width) * width + (head % width - 1) = head - 1 := by omega
      constructor
      · simp only [Option.getD_some]
        omega
      · intro dest hdest
        have : dest = (head / width) * width + (head % width - 1) := by cases hdest; rfl
        omega
    · rw [if_neg hc, if_neg (by omega : ¬ 1 ≤ head % width)]
      exact ⟨rfl, fun dest hdest => by cases hdest⟩
  | right =>
    simp only [stepIndex, coordDest]
    have hcm : width * (head / width) = (head / width) * width := Nat.mul_comm _ _
    have hiff : head % width ≠ width - 1 ↔ head % width + 1 < width := by omega
    by_cases hc : head % width ≠ width - 1
    · rw [if_pos hc, if_pos (hiff.mp hc)]
      have hval : (head / width) * width + (head % width + 1) = head + 1 := by omega
      have hbound : head + 1 < width * height := by
        have h2 : head / width + 1 ≤ height := hyh
        have hle : width * (head / width + 1) ≤ width * height := Nat.mul_le_mul_left width h2
        have hms : width * (head / width + 1) = width * (head / width) + width := Nat.mul_succ _ _
        omega
      constructor
      · simp only [Option.getD_some]
        omega
      · intro dest hdest
        have : dest = (head / width) * width + (head % width + 1) := by cases hdest; rfl
        omega
    · rw [if_neg hc, if_neg (fun h1 => hc (hiff.mpr h1))]
      exact ⟨rfl, fun dest hdest => by cases hdest⟩

lemma is_safe_move_true_iff (gs : GameState) (i : Nat) (snake : Snake) (pos : Nat)
    (hget : gs.snakes.get? i = some snake) :
    is_safe_move gs pos i = true ↔
      snake.body.get? 1 ≠ some pos ∧
        ∀ j s2, gs.snakes.get? j = some s2 → j ≠ i → s2.health ≠ 0 → pos ∉ s2.body := by
  unfold is_safe_move
  rw [hget]
  simp only [Option.map_some', Option.getD_some]
  by_cases hneck : 1 < snake.body.length ∧ snake.body.get? 1 = some pos
  · rw [if_pos hneck]
    constructor
    · intro h; cases h
    · rintro ⟨h1, -⟩; exact absurd hneck.2 h1
  · rw [if_neg hneck]
    rw [List.all_eq_true]
    constructor
    · intro hall
      constructor
      · intro hsome
        refine hneck ⟨?_, hsome⟩
        obtain ⟨hlt, -⟩ := List.get?_eq_some.mp hsome
        exact hlt
      · intro j s2 hj hji hs2 hmem
        have hjenum : (j, s2) ∈ gs.snakes.enum := by
          rw [List.mk_mem_enum_iff_getElem?, ← List.get?_eq_getElem?]
          exact hj
        have hthis := hall (j, s2) hjenum
        rw [if_neg (by push_neg; exact ⟨hji, hs2⟩)] at hthis
        simp only [decide_eq_true_eq] at hthis
        exact hthis hmem
    · rintro ⟨h1, h2⟩ p hp
      obtain ⟨j, s2⟩ := p
      have hj : gs.snakes.get? j = some s2 := by
        rw [List.get?_eq_getElem?, ← List.mk_mem_enum_iff_getElem?]
        exact hp
      by_cases hcond : j = i ∨ s2.health = 0
      · rw [if_pos hcond]
      · rw [if_neg hcond]
        push_neg at hcond
        simp only [decide_eq_true_eq]
        exact h2 j s2 hj hcond.1 hcond.2

/-- Claim C5 (amended): for a living on-board agent, the root-crate
`get_safe_moves` returns exactly the directions whose destination cell
stays on the board (in row-major coordinates) and is not the agent's
neck cell; the snake-crate `get_safe_moves` additionally excludes every
destination lying anywhere in another living agent's body (via
`is_safe_move`), which refutes the claim's "does not exclude" part for
that iteration. -/
theorem safe_moves_characterization
    (gs : GameState) (i : Nat) (snake : Snake) (d : Direction)
    (hget : gs.snakes.get? i = some snake)
    (halive : snake.health ≠ 0)
    (hon : snake.head < gs.width * gs.height)
    (hb : gs.width * gs.height < usizeMax) :
    (d ∈ RootCrate.get_safe_moves gs i ↔
      ∃ dest, coordDest gs.width gs.height snake.head d = some dest ∧
        snake.body.get? 1 ≠ some dest) ∧
    (d ∈ get_safe_moves gs i ↔
      ∃ dest, coordDest gs.width gs.height snake.head d = some dest ∧
        snake.body.get? 1 ≠ some dest ∧
        ∀ j s2, gs.snakes.get? j = some s2 → j ≠ i → s2.health ≠ 0 → dest ∉ s2.body) := by
  have hneMax : ∀ z : Nat, z < gs.width * gs.height → z ≠ usizeMax := by
    intro z hz heq
    rw [heq] at hz
    exact lt_asymm hb hz
  have hmax : ¬ snake.head = usizeMax := hneMax snake.head hon
  have hall : d ∈ [Direction.up, Direction.down, Direction.left, Direction.right] := by
    cases d <;> simp
  obtain ⟨hstep, hbound⟩ := stepIndex_eq_coordDest hon d
  constructor
  · unfold RootCrate.get_safe_moves
    rw [hget]
    dsimp only
    rw [if_neg halive, if_neg hmax, List.mem_filter]
    cases hcd : coordDest gs.width gs.height snake.head d with
    | none =>
      rw [hcd] at hstep
      simp only [Option.getD_none] at hstep
      constructor
      · rintro ⟨-, hpred⟩
        simp only [decide_eq_true_eq] at hpred
        exact absurd hstep hpred.1
      · rintro ⟨dest, hdest, -⟩
        cases hdest
    | some dest =>
      rw [hcd] at hstep
      simp only [Option.getD_some] at hstep
      have hdlt : dest < gs.width * gs.height := hbound dest hcd
      constructor
      · rintro ⟨-, hpred⟩
        simp only [decide_eq_true_eq] at hpred
        refine ⟨dest, rfl, ?_⟩
        rw [← hstep]
        exact hpred.2
      · rintro ⟨dest2, hdest2, hneck⟩
        have he : dest = dest2 := Option.some_injective _ hdest2
        rw [← he] at hneck
        refine ⟨hall, ?_⟩
        simp only [decide_eq_true_eq]
        rw [hstep]
        exact ⟨hneMax dest hdlt, hneck⟩
  · unfold get_safe_moves
    rw [hget]
    dsimp only
    rw [if_neg halive, if_neg hmax, List.mem_filter]
    cases hcd : coordDest gs.width gs.height snake.head d with
    | none =>
      rw [hcd] at hstep
      simp only [Option.getD_none] at hstep
      constructor
      · rintro ⟨-, hpred⟩
        simp only [decide_eq_true_eq] at hpred
        exact absurd hstep hpred.1
      · rintro ⟨dest, hdest, -⟩
        cases hdest
    | some dest =>
      rw [hcd] at hstep
      simp only [Option.getD_some] at hstep
      have hdlt : dest < gs.width * gs.height := hbound dest hcd
      constructor
      · rintro ⟨-, hpred⟩
        simp only [decide_eq_true_eq] at hpred
        obtain ⟨-, hsafe⟩ := hpred
        rw [hstep] at hsafe
        obtain ⟨hneck, hbodies⟩ := (is_safe_move_true_iff gs i snake dest hget).mp hsafe
        exact ⟨dest, rfl, hneck, hbodies⟩
      · rintro ⟨dest2, hdest2, hneck, hbodies⟩
        have he : dest = dest2 := Option.some_injective _ hdest2
        rw [← he] at hneck hbodies
        refine ⟨hall, ?_⟩
        simp only [decide_eq_true_eq]
        rw [hstep]
        exact ⟨hneMax dest hdlt,
          (is_safe_move_true_iff gs i snake dest hget).mpr ⟨hneck, hbodies⟩⟩

/-- A 5×5 board where snake `a` (head 12, neck 11) has snake `b`'s body
on its right-hand destination cell 13. -/
def c5cex : GameState :=
  { width := 5, height := 5,
    snakes := [{ id := "a", body := [12, 11], health := 90 },
               { id := "b", body := [13, 14], health := 90 }],
    food := [], hazards := [] }

/-- Claim C5 counterexample: cell 13 is on the board and is not snake
`a`'s neck, yet the snake-crate `get_safe_moves` excludes `right` merely
because 13 lies in another living agent's body (the root-crate variant
keeps it). -/
theorem c5_counterexample :
    coordDest c5cex.width c5cex.height 12 Direction.right = some 13 ∧
    (c5cex.snakes.get? 0).map (fun s => s.body.get? 1) = some (some 11) ∧
    (11 : Nat) ≠ 13 ∧
    Direction.right ∉ get_safe_moves c5cex 0 ∧
    Direction.right ∈ RootCrate.get_safe_moves c5cex 0 := by
  decide

theorem safe_moves_characterization_witness :
    Direction.up ∈ get_safe_moves c5cex 0 ∧
    Direction.up ∈ RootCrate.get_safe_moves c5cex 0 ∧
    Direction.left ∉ RootCrate.get_safe_moves c5cex 0 := by
  have h := safe_moves_characterization c5cex 0
    { id := "a", body := [12, 11], health := 90 } Direction.up
    (by decide) (by decide) (by decide) (by decide)
  have hl := safe_moves_characterization c5cex 0
    { id := "a", body := [12, 11], health := 90 } Direction.left
    (by decide) (by decide) (by decide) (by decide)
  refine ⟨h.2.mpr ⟨7, by decide, by decide, ?_⟩, h.1.mpr ⟨7, by decide, by decide⟩, ?_⟩
  · intro j s2 hj hji hs2
    rcases j with _ | _ | j
    · exact absurd rfl hji
    · cases hj
      decide
    · cases hj
  · intro hmem
    obtain ⟨dest, hdest, hneck⟩ := hl.1.mp hmem
    have : dest = 11 := by
      have := hdest.symm.trans (by decide : coordDest c5cex.width c5cex.height
        ({ id := "a", body := [12, 11], health := 90 } : Snake).head Direction.left = some 11)
      exact Option.some_injective _ this
    subst this
    exact hneck (by decide)

/-! ### Claim C6: occupancy precomputation of `calculate_snake_control` -/

/-- The inner `for (i, body_part) in snake.body.iter().enumerate()` loop
of `calculate_snake_control`: raise the vacate tick of each body cell to
`tf i` when larger (`tf` is the per-variant tick rule).  Indices are
produced by `enumFrom` so the recursion can track the segment offset.
A cell index out of range leaves the vector unchanged where the Rust
code would panic; the theorems below restrict to in-range bodies. -/
def bodyTicksUpd (tf : Nat → Nat) (segs : List (Nat × Nat)) (vec : List Nat) : List Nat :=
  segs.foldl (fun v p => if tf p.1 > v.getD p.2 0 then v.set p.2 (tf p.1) else v) vec

/-- The guard of the precompute loop: dead, empty-bodied or off-board
snakes are skipped (`snake.health == 0 || snake.body.is_empty() ||
snake.body[0].index == usize::MAX`). -/
def skipSnake (snake : Snake) : Prop :=
  snake.health = 0 ∨ snake.body = [] ∨ snake.body.headD 0 = usizeMax

instance (snake : Snake) : Decidable (skipSnake snake) :=
  inferInstanceAs (Decidable (_ ∨ _ ∨ _))

/-- The `position_unoccupied_at` precomputation of the snake-crate
`calculate_snake_control`: every body segment at position `i` (head =
0) raises its cell's vacate tick to `i + 1`; the per-cell maximum over
all living on-board snakes is kept. -/
def position_unoccupied_at (gs : GameState) : List Nat :=
  gs.snakes.foldl
    (fun vec snake =>
      if skipSnake snake then vec
      else bodyTicksUpd (fun i => i + 1) snake.body.enum vec)
    (List.replicate (gs.width * gs.height) 0)

namespace RootCrate

/-- The root-crate `position_unoccupied_at` precomputation
(`src/heuristic.rs`): identical except that the final (tail) segment is
given tick 0 — "for the tail segment, it becomes unoccupied at time 0
(immediately)". -/
def position_unoccupied_at (gs : GameState) : List Nat :=
  gs.snakes.foldl
    (fun vec snake =>
      if skipSnake snake then vec
      else bodyTicksUpd
        (fun i => if i = snake.body.length - 1 then 0 else i + 1) snake.body.enum vec)
    (List.replicate (gs.width * gs.height) 0)

end RootCrate

/-- Spec-side contribution list: the ticks `tf i` contributed to cell
`q` by the body segments, the segment at offset `k` first. -/
def ticksFrom (tf : Nat → Nat) : Nat → List Nat → Nat → List Nat
  | _, [], _ => []
  | k, p :: rest, q =>
    (if p = q then [tf k] else []) ++ ticksFrom tf (k + 1) rest q

/-- Spec-side per-cell vacate tick: the maximum contribution of the
living on-board snakes to cell `q` (0 if none). -/
def cellTick (tfOf : Snake → Nat → Nat) (snakes : List Snake) (q : Nat) : Nat :=
  (snakes.flatMap fun snake =>
    if skipSnake snake then [] else ticksFrom (tfOf snake) 0 snake.body q).foldr Nat.max 0

lemma getD_eq_get?_getD {l : List Nat} {q : Nat} : l.getD q 0 = (l.get? q).getD 0 := by
  induction l generalizing q with
  | nil => cases q <;> rfl
  | cons a t ih => cases q with
    | zero => rfl
    | succ j => exact ih

lemma getD_set_self_nat {l : List Nat} {q a : Nat} (h : q < l.length) :
    (l.set q a).getD q 0 = a := by
  rw [getD_eq_get?_getD, get?_set_self l q a h]
  rfl

lemma getD_set_ne_nat {l : List Nat} {p q a : Nat} (h : p ≠ q) :
    (l.set p a).getD q 0 = l.getD q 0 := by
  rw [getD_eq_get?_getD, get?_set_ne l p q a h, ← getD_eq_get?_getD]

lemma bodyTicksUpd_length {tf : Nat → Nat} :
    ∀ (segs : List (Nat × Nat)) (vec : List Nat),
      (bodyTicksUpd tf segs vec).length = vec.length := by
  intro segs
  induction segs with
  | nil => intro vec; rfl
  | cons p rest ih =>
    intro vec
    unfold bodyTicksUpd at ih ⊢
    rw [List.foldl_cons]
    rw [ih]
    by_cases hc : tf p.1 > vec.getD p.2 0
    · rw [if_pos hc, List.length_set]
    · rw [if_neg hc]

lemma foldr_max_init (l : List Nat) (b : Nat) :
    l.foldr Nat.max b = Nat.max (l.foldr Nat.max 0) b := by
  induction l with
  | nil => simp
  | cons a t ih =>
    simp only [List.foldr_cons, ih]
    exact (Nat.max_assoc a (List.foldr Nat.max 0 t) b).symm

lemma ticksFrom_cons {tf : Nat → Nat} {k p q : Nat} {rest : List Nat} :
    ticksFrom tf k (p :: rest) q =
      (if p = q then [tf k] else []) ++ ticksFrom tf (k + 1) rest q := rfl

lemma bodyTicksUpd_getD (tf : Nat → Nat) :
    ∀ (body : List Nat) (k : Nat) (vec : List Nat) (q : Nat), q < vec.length →
      (∀ p ∈ body, p < vec.length) →
      (bodyTicksUpd tf (List.enumFrom k body) vec).getD q 0 =
        Nat.max (vec.getD q 0) ((ticksFrom tf k body q).foldr Nat.max 0) := by
  intro body
  induction body with
  | nil =>
    intro k vec q hq _
    simp [bodyTicksUpd, ticksFrom, List.enumFrom]
  | cons p rest ih =>
    intro k vec q hq hmem
    have hp : p < vec.length := hmem p (List.mem_cons_self p rest)
    have hstep : List.enumFrom k (p :: rest) = (k, p) :: List.enumFrom (k + 1) rest := rfl
    rw [hstep]
    unfold bodyTicksUpd
    rw [List.foldl_cons]
    dsimp only
    set vec1 : List Nat := if vec.getD p 0 < tf k then vec.set p (tf k) else vec with hvec1
    have hlen1 : vec1.length = vec.length := by
      rw [hvec1]
      by_cases hc : vec.getD p 0 < tf k
      · rw [if_pos hc, List.length_set]
      · rw [if_neg hc]
    have hih := ih (k + 1) vec1 q (by omega) (by
      intro p2 hp2
      rw [hlen1]
      exact hmem p2 (List.mem_cons_of_mem p hp2))
    unfold bodyTicksUpd at hih
    rw [hih, ticksFrom_cons]
    by_cases hpq : p = q
    · subst hpq
      rw [if_pos rfl]
      simp only [List.singleton_append, List.foldr_cons]
      have hv1 : vec1.getD p 0 = Nat.max (vec.getD p 0) (tf k) := by
        rw [hvec1]
        by_cases hc : vec.getD p 0 < tf k
        · rw [if_pos hc, getD_set_self_nat hp]
          exact (Nat.max_eq_right (le_of_lt hc)).symm
        · rw [if_neg hc]
          push_neg at hc
          exact (Nat.max_eq_left hc).symm
      rw [hv1]
      exact Nat.max_assoc (vec.getD p 0) (tf k)
        ((ticksFrom tf (k + 1) rest p).foldr Nat.max 0)
    · rw [if_neg hpq]
      rw [List.nil_append]
      have hv1 : vec1.getD q 0 = vec.getD q 0 := by
        rw [hvec1]
        by_cases hc : vec.getD p 0 < tf k
        · rw [if_pos hc]
          exact getD_set_ne_nat hpq
        · rw [if_neg hc]
      rw [hv1]

lemma occupancy_fold_getD (tfOf : Snake → Nat → Nat) :
    ∀ (snakes : List Snake) (vec : List Nat) (q : Nat), q < vec.length →
      (∀ sn ∈ snakes, ¬ skipSnake sn → ∀ p ∈ sn.body, p < vec.length) →
      ((snakes.foldl (fun v sn => if skipSnake sn then v
          else bodyTicksUpd (tfOf sn) sn.body.enum v) vec).getD q 0) =
        Nat.max (vec.getD q 0) (cellTick tfOf snakes q) := by
  intro snakes
  induction snakes with
  | nil =>
    intro vec q hq _
    simp [cellTick]
  | cons sn rest ih =>
    intro vec q hq hmem
    rw [List.foldl_cons]
    by_cases hskip : skipSnake sn
    · rw [if_pos hskip]
      rw [ih vec q hq (fun s hs => hmem s (List.mem_cons_of_mem sn hs))]
      have hcell : cellTick tfOf (sn :: rest) q = cellTick tfOf rest q := by
        unfold cellTick
        rw [List.flatMap_cons, if_pos hskip, List.nil_append]
      rw [hcell]
    · rw [if_neg hskip]
      set vec1 := bodyTicksUpd (tfOf sn) sn.body.enum vec with hvec1
      have hlen1 : vec1.length = vec.length := bodyTicksUpd_length sn.body.enum vec
      rw [ih vec1 q (by omega) (fun s hs hsk p hp => by
        rw [hlen1]
        exact hmem s (List.mem_cons_of_mem sn hs) hsk p hp)]
      have hv1 : vec1.getD q 0 =
          Nat.max (vec.getD q 0) ((ticksFrom (tfOf sn) 0 sn.body q).foldr Nat.max 0) := by
        rw [hvec1]
        exact bodyTicksUpd_getD (tfOf sn) sn.body 0 vec q hq
          (hmem sn (List.mem_cons_self sn rest) hskip)
      rw [hv1]
      have hcell : cellTick tfOf (sn :: rest) q =
          Nat.max ((ticksFrom (tfOf sn) 0 sn.body q).foldr Nat.max 0)
            (cellTick tfOf rest q) := by
        unfold cellTick
        rw [List.flatMap_cons, if_neg hskip, List.foldr_append, foldr_max_init]
      rw [hcell]
      exact Nat.max_assoc (vec.getD q 0) ((ticksFrom (tfOf sn) 0 sn.body q).foldr Nat.max 0)
        (cellTick tfOf rest q)

lemma replicate_getD_zero : ∀ (n q : Nat), (List.replicate n (0 : Nat)).getD q 0 = 0 := by
  intro n
  induction n with
  | zero => intro q; cases q <;> rfl
  | succ m ih =>
    intro q
    cases q with
    | zero => rfl
    | succ j => exact ih j

/-- Claim C6 (amended): in the snake-crate `calculate_snake_control`
precomputation, the vacate tick of a cell is the maximum of `i + 1` over
all body segments at position `i` (head = 0) of living on-board agents
covering it (0 when none) — so a segment's cell is enterable by the
frontier only at ticks ≥ `i + 1`, the maximum is recorded per cell, and
dead or off-board agents contribute nothing.  In the root-crate variant
the same holds except that a snake's final (tail) segment contributes
tick 0, i.e. its cell is immediately enterable — refuting the claim as
frozen for that iteration. -/
theorem occupancy_tick_characterization (gs : GameState) (q : Nat)
    (hq : q < gs.width * gs.height)
    (hbodies : ∀ sn ∈ gs.snakes, ¬ skipSnake sn → ∀ p ∈ sn.body, p < gs.width * gs.height) :
    (position_unoccupied_at gs).getD q 0 = cellTick (fun _ i => i + 1) gs.snakes q ∧
    (RootCrate.position_unoccupied_at gs).getD q 0 =
      cellTick (fun sn i => if i = sn.body.length - 1 then 0 else i + 1) gs.snakes q := by
  have hlen : (List.replicate (gs.width * gs.height) (0 : Nat)).length =
      gs.width * gs.height := List.length_replicate _ _
  constructor
  · have h := occupancy_fold_getD (fun _ i => i + 1) gs.snakes
      (List.replicate (gs.width * gs.height) 0) q (by omega)
      (fun s hs hsk p hp => by rw [hlen]; exact hbodies s hs hsk p hp)
    rw [replicate_getD_zero] at h
    rw [show (position_unoccupied_at gs).getD q 0 =
      Nat.max 0 (cellTick (fun _ i => i + 1) gs.snakes q) from h]
    exact Nat.zero_max _
  · have h := occupancy_fold_getD (fun sn i => if i = sn.body.length - 1 then 0 else i + 1)
      gs.snakes (List.replicate (gs.width * gs.height) 0) q (by omega)
      (fun s hs hsk p hp => by rw [hlen]; exact hbodies s hs hsk p hp)
    rw [replicate_getD_zero] at h
    rw [show (RootCrate.position_unoccupied_at gs).getD q 0 =
      Nat.max 0 (cellTick (fun sn i => if i = sn.body.length - 1 then 0 else i + 1)
        gs.snakes q) from h]
    exact Nat.zero_max _

/-- A single living snake with body `[4, 5, 6]` on a 3×3 board. -/
def c6cex : GameState :=
  { width := 3, height := 3,
    snakes := [{ id := "a", body := [4, 5, 6], health := 100 }],
    food := [], hazards := [] }

/-- Claim C6 counterexample: segment `i = 2` of the living on-board
snake sits on cell 6, so the claim demands that cell be enterable only
at ticks ≥ 3; the root-crate precomputation instead records vacate tick
0 (the tail is treated as immediately free), so the frontier gate
`position_unoccupied_at[pos] > next_depth` admits entry already at tick
1.  The snake-crate variant records 3 as the claim describes. -/
theorem c6_counterexample :
    ((c6cex.snakes.get? 0).map Snake.body).getD [] = [4, 5, 6] ∧
    healthAt c6cex.snakes 0 ≠ 0 ∧
    (RootCrate.position_unoccupied_at c6cex).getD 6 0 = 0 ∧
    ¬ ((RootCrate.position_unoccupied_at c6cex).getD 6 0 > 1) ∧
    (position_unoccupied_at c6cex).getD 6 0 = 3 ∧
    (1 : Nat) < 2 + 1 := by
  decide

theorem occupancy_tick_characterization_witness :
    (position_unoccupied_at c6cex).getD 4 0 = cellTick (fun _ i => i + 1) c6cex.snakes 4 ∧
    cellTick (fun _ i => i + 1) c6cex.snakes 4 = 1 := by
  have h := occupancy_tick_characterization c6cex 4 (by decide) (by decide)
  exact ⟨h.1, by decide⟩

/-! ### Claim C7: leaf evaluation and backpropagation value -/

/-- Rust's `i as i8` cast on a `usize`: truncate to the low 8 bits and
reinterpret in two's complement, so the seeded snake ids wrap at 128
(to −128) and alias lower indices from 256 onwards. -/
def as_i8 (n : Nat) : Int :=
  if n % 256 < 128 then ((n % 256 : Nat) : Int) else ((n % 256 : Nat) : Int) - 256

lemma as_i8_eq_of_lt {n : Nat} (h : n < 128) : as_i8 n = (n : Int) := by
  unfold as_i8
  rw [Nat.mod_eq_of_lt (by omega), if_pos h]

/-- The direction offsets of the frontier expansion
(`[-(width as isize), width as isize, -1, 1]`). -/
def offsetsOf (width : Nat) : List Int :=
  [-(width : Int), (width : Int), -1, 1]

/-- One neighbor probe of the frontier expansion of
`calculate_snake_control`: bounds check, horizontal-wrap check, the
occupancy gate `position_unoccupied_at[new_pos] > next_depth`, and the
min-depth / tie-break updates.  The state is (control, min_depth,
pushed queue entries). -/
def neighbor_step (width boardSize : Nat) (posUnocc : List Nat) (pos : Nat) (snake_id : Int)
    (next_depth : Nat) (st : List Int × List Nat × List (Nat × Int × Nat)) (offset : Int) :
    List Int × List Nat × List (Nat × Int × Nat) :=
  let new_pos : Int := (pos : Int) + offset
  if new_pos < 0 ∨ (boardSize : Int) ≤ new_pos then st
  else if (offset = -1 ∧ pos % width = 0) ∨ (offset = 1 ∧ (pos + 1) % width = 0) then st
  else
    let np := new_pos.toNat
    if posUnocc.getD np 0 > next_depth then st
    else if next_depth < st.2.1.getD np u32Max then
      (st.1.set np snake_id, st.2.1.set np next_depth, st.2.2 ++ [(np, snake_id, next_depth)])
    else if next_depth = st.2.1.getD np u32Max ∧ snake_id < st.1.getD np (-1) then
      (st.1.set np snake_id, st.2.1, st.2.2)
    else st

/-- The `while let Some((pos, snake_id, depth)) = queue.pop_front()`
loop of `calculate_snake_control`, with an explicit fuel so the
recursion is structural; the Rust loop terminates, and every theorem
below either quantifies over all fuels or evaluates a concrete state
with ample fuel. -/
def snake_control_loop (width boardSize : Nat) (posUnocc : List Nat) :
    Nat → List (Nat × Int × Nat) → List Int → List Nat → List Int
  | _, [], control, _ => control
  | 0, _ :: _, control, _ => control
  | fuel + 1, (pos, snake_id, depth) :: qrest, control, minDepth =>
    let next_depth := depth + 1
    let st := (offsetsOf width).foldl
      (neighbor_step width boardSize posUnocc pos snake_id next_depth)
      (control, minDepth, ([] : List (Nat × Int × Nat)))
    snake_control_loop width boardSize posUnocc fuel (qrest ++ st.2.2) st.1 st.2.1

/-- `calculate_snake_control` (snake crate): seed the queue with the
living on-board snakes' heads at depth 0 — with the snake id cast
`i as i8`, wrapping as in Rust — and expand.  (A snake with an empty
body makes the Rust seeding loop panic on `body[0]`; modelled as a
skip, and excluded by hypothesis where it matters.) -/
def calculate_snake_control (gs : GameState) (fuel : Nat) : List Int :=
  let width := gs.width
  let board_size := width * gs.height
  let posUnocc := position_unoccupied_at gs
  let seeded := gs.snakes.enum.foldl
    (fun (st : List (Nat × Int × Nat) × List Int × List Nat) p =>
      let head := p.2.body.headD usizeMax
      if head = usizeMax ∨ p.2.health = 0 then st
      else (st.1 ++ [(head, as_i8 p.1, 0)], st.2.1.set head (as_i8 p.1), st.2.2.set head 0))
    ([], List.replicate board_size (-1), List.replicate board_size u32Max)
  snake_control_loop width board_size posUnocc fuel seeded.1 seeded.2.1 seeded.2.2

/-- `calculate_control_percentages` (snake crate): count the cells each
snake controls and scale by `100 / board_size`.  Rust computes in `f32`;
the rational model is exact, and the claims evaluated here concern the
values 0 and 100 at which the `f32` arithmetic is also exact. -/
def calculate_control_percentages (gs : GameState) (fuel : Nat) : List ℚ :=
  let control := calculate_snake_control gs fuel
  let board_size := gs.width * gs.height
  let counts := control.foldl
    (fun counts c => if 0 ≤ c then counts.set c.toNat (counts.getD c.toNat 0 + 1) else counts)
    (List.replicate gs.snakes.length (0 : Nat))
  counts.map fun count : Nat => ((count : ℚ) / ((board_size : ℚ)) * 100)

/-- The value vector `MCTS::back_propagate` accumulates into the
evaluated node and every ancestor: always the control percentages of
the evaluated node's board, with no special case for terminal nodes. -/
def back_propagate_value (gs : GameState) (fuel : Nat) : List ℚ :=
  calculate_control_percentages gs fuel

/-- `MCTS::is_terminal`: at most one living snake. -/
def is_terminal (gs : GameState) : Bool :=
  (gs.snakes.filter fun s => 0 < s.health).length ≤ 1

/-- A control entry that is the wrapped id of a living snake index. -/
def GoodSid (snakes : List Snake) (sid : Int) : Prop :=
  ∃ i : Nat, sid = as_i8 i ∧ healthAt snakes i ≠ 0

lemma neighbor_step_good {snakes : List Snake} {w bs : Nat} {pu : List Nat} {pos : Nat}
    {sid : Int} {nd : Nat} (hsid : GoodSid snakes sid)
    {st : List Int × List Nat × List (Nat × Int × Nat)}
    (hctl : ∀ c ∈ st.1, c = -1 ∨ GoodSid snakes c)
    (hpush : ∀ x ∈ st.2.2, GoodSid snakes x.2.1) (offset : Int) :
    (∀ c ∈ (neighbor_step w bs pu pos sid nd st offset).1, c = -1 ∨ GoodSid snakes c) ∧
    (∀ x ∈ (neighbor_step w bs pu pos sid nd st offset).2.2, GoodSid snakes x.2.1) := by
  unfold neighbor_step
  by_cases h1 : ((pos : Int) + offset < 0 ∨ (bs : Int) ≤ (pos : Int) + offset)
  · rw [if_pos h1]; exact ⟨hctl, hpush⟩
  · rw [if_neg h1]
    by_cases h2 : ((offset = -1 ∧ pos % w = 0) ∨ (offset = 1 ∧ (pos + 1) % w = 0))
    · rw [if_pos h2]; exact ⟨hctl, hpush⟩
    · rw [if_neg h2]
      by_cases h3 : pu.getD ((pos : Int) + offset).toNat 0 > nd
      · rw [if_pos h3]; exact ⟨hctl, hpush⟩
      · rw [if_neg h3]
        by_cases h4 : nd < st.2.1.getD ((pos : Int) + offset).toNat u32Max
        · rw [if_pos h4]
          constructor
          · intro c hc
            rcases List.mem_or_eq_of_mem_set hc with hc | hc
            · exact hctl c hc
            · exact Or.inr (hc ▸ hsid)
          · intro x hx
            rcases List.mem_append.mp hx with hx | hx
            · exact hpush x hx
            · rcases List.mem_singleton.mp hx with rfl
              exact hsid
        · rw [if_neg h4]
          by_cases h5 : nd = st.2.1.getD ((pos : Int) + offset).toNat u32Max ∧
              sid < st.1.getD ((pos : Int) + offset).toNat (-1)
          · rw [if_pos h5]
            constructor
            · intro c hc
              rcases List.mem_or_eq_of_mem_set hc with hc | hc
              · exact hctl c hc
              · exact Or.inr (hc ▸ hsid)
            · exact hpush
          · rw [if_neg h5]; exact ⟨hctl, hpush⟩

lemma offsets_fold_good {snakes : List Snake} {w bs : Nat} {pu : List Nat} {pos : Nat}
    {sid : Int} {nd : Nat} (hsid : GoodSid snakes sid) :
    ∀ (l : List Int) (st : List Int × List Nat × List (Nat × Int × Nat)),
      (∀ c ∈ st.1, c = -1 ∨ GoodSid snakes c) →
      (∀ x ∈ st.2.2, GoodSid snakes x.2.1) →
      (∀ c ∈ (l.foldl (neighbor_step w bs pu pos sid nd) st).1, c = -1 ∨ GoodSid snakes c) ∧
      (∀ x ∈ (l.foldl (neighbor_step w bs pu pos sid nd) st).2.2, GoodSid snakes x.2.1) := by
  intro l
  induction l with
  | nil => intro st hctl hpush; exact ⟨hctl, hpush⟩
  | cons o rest ih =>
    intro st hctl hpush
    rw [List.foldl_cons]
    obtain ⟨h1, h2⟩ := neighbor_step_good hsid hctl hpush o
    exact ih _ h1 h2

lemma loop_good {snakes : List Snake} {w bs : Nat} {pu : List Nat} :
    ∀ (fuel : Nat) (queue : List (Nat × Int × Nat)) (control : List Int) (minDepth : List Nat),
      (∀ x ∈ queue, GoodSid snakes x.2.1) →
      (∀ c ∈ control, c = -1 ∨ GoodSid snakes c) →
      ∀ c ∈ snake_control_loop w bs pu fuel queue control minDepth,
        c = -1 ∨ GoodSid snakes c := by
  intro fuel
  induction fuel with
  | zero =>
    intro queue control minDepth _ hctl
    cases queue with
    | nil => exact hctl
    | cons a q => exact hctl
  | succ f ih =>
    intro queue control minDepth hq hctl
    cases queue with
    | nil => exact hctl
    | cons a qrest =>
      obtain ⟨pos, sid, depth⟩ := a
      have hsid : GoodSid snakes sid := hq (pos, sid, depth) (List.mem_cons_self _ _)
      unfold snake_control_loop
      obtain ⟨h1, h2⟩ := offsets_fold_good hsid (offsetsOf w)
        (control, minDepth, ([] : List (Nat × Int × Nat))) hctl (by intro x hx; cases hx)
      refine ih _ _ _ ?_ h1
      intro x hx
      rcases List.mem_append.mp hx with hx | hx
      · exact hq x (List.mem_cons_of_mem _ hx)
      · exact h2 x hx

lemma seed_good {snakes : List Snake} :
    ∀ (l : List (Nat × Snake))
      (st : List (Nat × Int × Nat) × List Int × List Nat),
      (∀ p ∈ l, snakes.get? p.1 = some p.2) →
      (∀ x ∈ st.1, GoodSid snakes x.2.1) →
      (∀ c ∈ st.2.1, c = -1 ∨ GoodSid snakes c) →
      (∀ x ∈ (l.foldl (fun st p =>
          let head := p.2.body.headD usizeMax
          if head = usizeMax ∨ p.2.health = 0 then st
          else (st.1 ++ [(head, (as_i8 p.1), 0)], st.2.1.set head (as_i8 p.1),
            st.2.2.set head 0)) st).1, GoodSid snakes x.2.1) ∧
      (∀ c ∈ (l.foldl (fun st p =>
          let head := p.2.body.headD usizeMax
          if head = usizeMax ∨ p.2.health = 0 then st
          else (st.1 ++ [(head, (as_i8 p.1), 0)], st.2.1.set head (as_i8 p.1),
            st.2.2.set head 0)) st).2.1, c = -1 ∨ GoodSid snakes c) := by
  intro l
  induction l with
  | nil => intro st _ hq hctl; exact ⟨hq, hctl⟩
  | cons p rest ih =>
    intro st hl hq hctl
    rw [List.foldl_cons]
    have hp : snakes.get? p.1 = some p.2 := hl p (List.mem_cons_self p rest)
    have hrest : ∀ p2 ∈ rest, snakes.get? p2.1 = some p2.2 :=
      fun p2 h2 => hl p2 (List.mem_cons_of_mem p h2)
    by_cases hc : p.2.body.headD usizeMax = usizeMax ∨ p.2.health = 0
    · refine ih _ hrest ?_ ?_
      · intro x hx
        have : (if p.2.body.headD usizeMax = usizeMax ∨ p.2.health = 0 then st
            else (st.1 ++ [(p.2.body.headD usizeMax, (as_i8 p.1), 0)],
              st.2.1.set (p.2.body.headD usizeMax) (as_i8 p.1),
              st.2.2.set (p.2.body.headD usizeMax) 0)) = st := if_pos hc
        rw [this] at hx
        exact hq x hx
      · intro c hcc
        have : (if p.2.body.headD usizeMax = usizeMax ∨ p.2.health = 0 then st
            else (st.1 ++ [(p.2.body.headD usizeMax, (as_i8 p.1), 0)],
              st.2.1.set (p.2.body.headD usizeMax) (as_i8 p.1),
              st.2.2.set (p.2.body.headD usizeMax) 0)) = st := if_pos hc
        rw [this] at hcc
        exact hctl c hcc
    · push_neg at hc
      have hgood : GoodSid snakes (as_i8 p.1) := by
        refine ⟨p.1, rfl, ?_⟩
        unfold healthAt
        rw [hp]
        simpa using hc.2
      have heq : (if p.2.body.headD usizeMax = usizeMax ∨ p.2.health = 0 then st
          else (st.1 ++ [(p.2.body.headD usizeMax, (as_i8 p.1), 0)],
            st.2.1.set (p.2.body.headD usizeMax) (as_i8 p.1),
            st.2.2.set (p.2.body.headD usizeMax) 0)) =
          (st.1 ++ [(p.2.body.headD usizeMax, (as_i8 p.1), 0)],
            st.2.1.set (p.2.body.headD usizeMax) (as_i8 p.1),
            st.2.2.set (p.2.body.headD usizeMax) 0) := by
        rw [if_neg (by push_neg; exact hc)]
      refine ih _ hrest ?_ ?_
      · intro x hx
        rw [heq] at hx
        rcases List.mem_append.mp hx with hx | hx
        · exact hq x hx
        · rcases List.mem_singleton.mp hx with rfl
          exact hgood
      · intro c hcc
        rw [heq] at hcc
        rcases List.mem_or_eq_of_mem_set hcc with hcc | hcc
        · exact hctl c hcc
        · exact Or.inr (hcc ▸ hgood)

lemma control_good {gs : GameState} {fuel : Nat} :
    ∀ c ∈ calculate_snake_control gs fuel, c = -1 ∨ GoodSid gs.snakes c := by
  intro c hc
  unfold calculate_snake_control at hc
  have henum : ∀ p ∈ gs.snakes.enum, gs.snakes.get? p.1 = some p.2 := by
    intro p hp
    rw [List.get?_eq_getElem?, ← List.mk_mem_enum_iff_getElem?]
    exact hp
  obtain ⟨hq, hctl⟩ := seed_good gs.snakes.enum
    ([], List.replicate (gs.width * gs.height) (-1),
      List.replicate (gs.width * gs.height) u32Max)
    henum (by intro x hx; cases hx)
    (by intro c2 hc2; exact Or.inl (List.eq_of_mem_replicate hc2))
  exact loop_good fuel _ _ _ hq hctl c hc

lemma counts_fold_length :
    ∀ (l : List Int) (counts : List Nat),
      (l.foldl (fun counts c => if 0 ≤ c then
        counts.set c.toNat (counts.getD c.toNat 0 + 1) else counts) counts).length =
        counts.length := by
  intro l
  induction l with
  | nil => intro counts; rfl
  | cons c rest ih =>
    intro counts
    rw [List.foldl_cons]
    rw [ih]
    by_cases hc : (0 : Int) ≤ c
    · rw [if_pos hc, List.length_set]
    · rw [if_neg hc]

lemma counts_fold_getD {j : Nat} :
    ∀ (l : List Int) (counts : List Nat),
      (∀ c ∈ l, ¬ ((0 : Int) ≤ c ∧ c.toNat = j)) →
      (l.foldl (fun counts c => if 0 ≤ c then
        counts.set c.toNat (counts.getD c.toNat 0 + 1) else counts) counts).getD j 0 =
        counts.getD j 0 := by
  intro l
  induction l with
  | nil => intro counts _; rfl
  | cons c rest ih =>
    intro counts hl
    rw [List.foldl_cons]
    rw [ih _ (fun c2 h2 => hl c2 (List.mem_cons_of_mem c h2))]
    by_cases hc : (0 : Int) ≤ c
    · rw [if_pos hc]
      have hne : c.toNat ≠ j := fun he => hl c (List.mem_cons_self c rest) ⟨hc, he⟩
      exact getD_set_ne_nat hne
    · rw [if_neg hc]

lemma map_get?_of_get? {α β : Type} (f : α → β) :
    ∀ (l : List α) (j : Nat) (v : α), l.get? j = some v →
      (l.map f).get? j = some (f v) := by
  intro l
  induction l with
  | nil => intro j v h; cases h
  | cons a t ih =>
    intro j v h
    cases j with
    | zero =>
      cases h
      rfl
    | succ k => exact ih k v h

/-- Claim C7 (amended): the value vector that `back_propagate`
accumulates into the evaluated node and all its ancestors is always the
control-percentage vector of that node's board — terminal nodes get no
1.0/0.0 outcome vector.  What does hold of the claim: every dead agent
scores 0.  The sole survivor of a terminal node scores its control
percentage (up to 100.0), not 1.0, as the counterexample shows.
(`fuel` bounds the frontier loop, which Rust runs to completion; the
statement holds for every fuel.  Boards with an empty-bodied snake are
excluded: the Rust seeding panics on them.  Snake ids are seeded with
the wrapping cast `i as i8`, so the guarantee needs at most 128 snakes:
beyond that a living snake's wrapped id can alias a dead lower
index.) -/
theorem back_propagate_dead_scores_zero (gs : GameState) (fuel : Nat) (j : Nat)
    (hbody : ∀ sn ∈ gs.snakes, sn.body ≠ [])
    (hlen : gs.snakes.length ≤ 128)
    (hj : j < gs.snakes.length) (hdead : healthAt gs.snakes j = 0) :
    (back_propagate_value gs fuel).get? j = some 0 := by
  unfold back_propagate_value calculate_control_percentages
  have hnotj : ∀ c ∈ calculate_snake_control gs fuel, ¬ ((0 : Int) ≤ c ∧ c.toNat = j) := by
    intro c hc ⟨hge, hto⟩
    rcases control_good c hc with rfl | ⟨i, rfl, hlive⟩
    · cases hge
    · have hi : i < gs.snakes.length := lt_length_of_healthAt_ne_zero hlive
      have h8 : as_i8 i = (i : Int) := as_i8_eq_of_lt (by omega)
      rw [h8] at hto
      have : i = j := by
        rw [← hto]
        simp
      rw [this] at hlive
      exact hlive hdead
  have hlen := counts_fold_length (calculate_snake_control gs fuel)
    (List.replicate gs.snakes.length 0)
  have hgd := counts_fold_getD (calculate_snake_control gs fuel)
    (List.replicate gs.snakes.length 0) hnotj
  rw [replicate_getD_zero] at hgd
  cases hcj : (List.foldl (fun counts c => if 0 ≤ c then
      counts.set c.toNat (counts.getD c.toNat 0 + 1) else counts)
      (List.replicate gs.snakes.length 0) (calculate_snake_control gs fuel)).get? j with
  | none =>
    have := List.get?_eq_none.mp hcj
    rw [hlen, List.length_replicate] at this
    omega
  | some v =>
    have hv : v = 0 := by
      rw [getD_eq_get?_getD, hcj] at hgd
      exact hgd
    subst hv
    have hmap := map_get?_of_get?
      (fun count : Nat => ((count : ℚ) / ((gs.width * gs.height : Nat) : ℚ) * 100)) _ j 0 hcj
    refine hmap.trans ?_
    norm_num

/-- A lone length-1 snake at the centre of a 3×3 board: a terminal
state whose sole survivor controls the whole board. -/
def c7cex : GameState :=
  { width := 3, height := 3,
    snakes := [{ id := "a", body := [4], health := 100 }],
    food := [], hazards := [] }

/-- Claim C7 counterexample: at this terminal state (one living agent),
the backpropagated value vector is the control-percentage vector
`[100]` (the survivor controls all 9 of 9 cells), not the claimed
survivor-outcome vector `[1.0]` — the search code never special-cases
terminal nodes when evaluating. -/
theorem c7_counterexample :
    is_terminal c7cex = true ∧
    healthAt c7cex.snakes 0 ≠ 0 ∧
    back_propagate_value c7cex 32 = [100] ∧
    ((100 : ℚ) ≠ 1) := by
  refine ⟨by decide, by decide, ?_, by norm_num⟩
  have hcounts : List.foldl (fun counts c => if 0 ≤ c then
      counts.set c.toNat (counts.getD c.toNat 0 + 1) else counts)
      (List.replicate c7cex.snakes.length 0) (calculate_snake_control c7cex 32) = [9] := by
    decide
  unfold back_propagate_value calculate_control_percentages
  dsimp only
  rw [hcounts]
  show [((9 : Nat) : ℚ) / ((9 : Nat) : ℚ) * 100] = [100]
  norm_num

theorem back_propagate_dead_scores_zero_witness :
    (back_propagate_value
      { width := 3, height := 3,
        snakes := [{ id := "a", body := [4], health := 100 },
                   { id := "b", body := [0], health := 0 }],
        food := [], hazards := [] } 32).get? 1 = some 0 := by
  exact back_propagate_dead_scores_zero _ 32 1 (by decide) (by decide) (by decide) (by decide)

/-! ### Claim C8: best-move selection -/

/-- The fields of `search.rs`'s `Node` that determine
`get_best_move_for_snake`: the visit count and the joint move vector
that produced the node.  (The board snapshot, score vectors, children
and parent link of a root child play no part in the selection.) -/
structure SearchNode where
  visits : Nat
  moves : List (Option Direction)
deriving DecidableEq, Repr

/-- The per-snake move options built by `MCTS::expand`: a living snake
contributes its safe moves (or `[None]` when it has none), a dead snake
contributes `[None]`. -/
def snakes_safe_moves (gs : GameState) : List (List (Option Direction)) :=
  (List.range gs.snakes.length).map fun snake_index =>
    match gs.snakes.get? snake_index with
    | some snake =>
      if 0 < snake.health then
        let safe_moves := get_safe_moves gs snake_index
        if safe_moves = [] then [none] else safe_moves.map some
      else [none]
    | none => [none]

/-- The `cartesian_product` helper of `search.rs`, as the fold the Rust
loop performs.  (The Rust early return on an empty pool is semantically
the identity: an empty pool empties the accumulator, which then stays
empty.) -/
def cartesian_product {α : Type} (lists : List (List α)) : List (List α) :=
  lists.foldl (fun result pool => result.flatMap fun x => pool.map fun y => x ++ [y]) [[]]

lemma mem_cartesian_foldl {α : Type} :
    ∀ (pools : List (List α)) (acc : List (List α)) (xs : List α),
      xs ∈ pools.foldl
        (fun result pool => result.flatMap fun x => pool.map fun y => x ++ [y]) acc →
      ∃ pre ys, pre ∈ acc ∧ List.Forall₂ (fun y pool => y ∈ pool) ys pools ∧
        xs = pre ++ ys := by
  intro pools
  induction pools with
  | nil =>
    intro acc xs h
    exact ⟨xs, [], h, List.Forall₂.nil, (List.append_nil xs).symm⟩
  | cons pool rest ih =>
    intro acc xs h
    rw [List.foldl_cons] at h
    obtain ⟨pre, ys, hpre, hf2, hxs⟩ := ih _ xs h
    obtain ⟨x, hx, hprex⟩ := List.mem_flatMap.mp hpre
    obtain ⟨y, hy, hyx⟩ := List.mem_map.mp hprex
    refine ⟨x, y :: ys, hx, List.Forall₂.cons hy hf2, ?_⟩
    rw [hxs, ← hyx]
    simp

lemma mem_cartesian_product {α : Type} {pools : List (List α)} {xs : List α}
    (h : xs ∈ cartesian_product pools) :
    List.Forall₂ (fun y pool => y ∈ pool) xs pools := by
  obtain ⟨pre, ys, hpre, hf2, hxs⟩ := mem_cartesian_foldl pools [[]] xs h
  rcases List.mem_singleton.mp hpre with rfl
  rw [List.nil_append] at hxs
  rw [hxs]
  exact hf2

/-- One comparison step of `Iterator::max_by_key` on visit counts: the
later element wins ties, as in Rust. -/
def pick_step (best : Option SearchNode) (child : SearchNode) : Option SearchNode :=
  match best with
  | none => some child
  | some b => if b.visits ≤ child.visits then some child else some b

/-- `Iterator::max_by_key` on the children's visit counts: the last
maximal element is kept. -/
def max_by_visits (children : List SearchNode) : Option SearchNode :=
  children.foldl pick_step none

/-- `MCTS::get_best_move_for_snake`: pick the most-visited root child,
find the named snake's index in the root board, and return that entry
of the child's move vector. -/
def get_best_move_for_snake (root_state : GameState) (children : List SearchNode)
    (our_snake_id : String) : Option Direction :=
  if children = [] then none
  else
    match max_by_visits children with
    | none => none
    | some child =>
      match root_state.snakes.findIdx? (fun s => s.id = our_snake_id) with
      | some index => (child.moves.get? index).bind id
      | none => none

lemma pick_step_some {acc : Option SearchNode} {a x : SearchNode}
    (hx : pick_step acc a = some x) :
    a.visits ≤ x.visits ∧ (x = a ∨ acc = some x) := by
  cases acc with
  | none =>
    cases hx
    exact ⟨le_refl _, Or.inl rfl⟩
  | some b =>
    simp only [pick_step] at hx
    by_cases hba : b.visits ≤ a.visits
    · rw [if_pos hba] at hx
      cases hx
      exact ⟨le_refl _, Or.inl rfl⟩
    · rw [if_neg hba] at hx
      cases hx
      exact ⟨le_of_not_le hba, Or.inr rfl⟩

lemma pick_step_isSome {acc : Option SearchNode} {a : SearchNode} :
    ∃ x, pick_step acc a = some x := by
  cases acc with
  | none => exact ⟨a, rfl⟩
  | some b =>
    simp only [pick_step]
    by_cases hba : b.visits ≤ a.visits
    · rw [if_pos hba]; exact ⟨a, rfl⟩
    · rw [if_neg hba]; exact ⟨b, rfl⟩

lemma max_by_visits_foldl_spec :
    ∀ (l : List SearchNode) (acc : Option SearchNode) (c : SearchNode),
      l.foldl pick_step acc = some c →
      (acc = some c ∨ c ∈ l) ∧ (∀ c2 ∈ l, c2.visits ≤ c.visits) ∧
        (∀ b, acc = some b → b.visits ≤ c.visits) := by
  intro l
  induction l with
  | nil =>
    intro acc c h
    refine ⟨Or.inl h, ?_, ?_⟩
    · intro c2 h2
      cases h2
    · intro b hb
      rw [hb] at h
      cases h
      exact le_refl _
  | cons a rest ih =>
    intro acc c h
    rw [List.foldl_cons] at h
    obtain ⟨h1, h2, h3⟩ := ih _ c h
    obtain ⟨x, hx⟩ := @pick_step_isSome acc a
    have hxc : x.visits ≤ c.visits := h3 x hx
    obtain ⟨hax, hxcase⟩ := pick_step_some hx
    constructor
    · rcases h1 with h1 | h1
      · rw [hx] at h1
        cases h1
        rcases hxcase with rfl | hcase
        · exact Or.inr (List.mem_cons_self _ _)
        · exact Or.inl hcase
      · exact Or.inr (List.mem_cons_of_mem a h1)
    constructor
    · intro c2 hc2
      rcases List.mem_cons.mp hc2 with rfl | hc2
      · exact le_trans hax hxc
      · exact h2 c2 hc2
    · intro b hb
      subst hb
      obtain ⟨haxb, hcase⟩ := pick_step_some hx
      rcases hcase with rfl | hcase
      · -- x = a, so b lost the comparison: b.visits ≤ a.visits = x.visits
        have : pick_step (some b) x = some x := hx
        simp only [pick_step] at this
        by_cases hbx : b.visits ≤ x.visits
        · exact le_trans hbx hxc
        · rw [if_neg hbx] at this
          cases this
          exact hxc
      · cases hcase
        exact hxc

lemma max_by_visits_spec {children : List SearchNode} {c : SearchNode}
    (h : max_by_visits children = some c) :
    c ∈ children ∧ ∀ c2 ∈ children, c2.visits ≤ c.visits := by
  obtain ⟨h1, h2, -⟩ := max_by_visits_foldl_spec children none c h
  rcases h1 with h1 | h1
  · cases h1
  · exact ⟨h1, h2⟩

/-- Claim C8: whatever interleaving produced the root's children, every
child of the root carries a joint-move vector drawn from `expand`'s
cartesian product of per-snake safe moves on the root board (which the
search never mutates).  Under that invariant, whenever
`get_best_move_for_snake` returns a direction for a named agent, it is
the direction recorded for that agent in a most-visited root child, and
it belongs to the agent's `get_safe_moves` on the pre-search root
board. -/
theorem best_move_from_most_visited_child_is_safe
    (root_state : GameState) (children : List SearchNode) (our_snake_id : String)
    (d : Direction)
    (hchildren : ∀ c ∈ children, c.moves ∈ cartesian_product (snakes_safe_moves root_state))
    (hres : get_best_move_for_snake root_state children our_snake_id = some d) :
    ∃ index child,
      root_state.snakes.findIdx? (fun s => s.id = our_snake_id) = some index ∧
      max_by_visits children = some child ∧ child ∈ children ∧
      (∀ c ∈ children, c.visits ≤ child.visits) ∧
      child.moves.get? index = some (some d) ∧
      d ∈ get_safe_moves root_state index := by
  unfold get_best_move_for_snake at hres
  by_cases hemp : children = []
  · rw [if_pos hemp] at hres
    cases hres
  · rw [if_neg hemp] at hres
    cases hmax : max_by_visits children with
    | none =>
      rw [hmax] at hres
      cases hres
    | some child =>
      rw [hmax] at hres
      cases hfind : root_state.snakes.findIdx? (fun s => s.id = our_snake_id) with
      | none =>
        rw [hfind] at hres
        cases hres
      | some index =>
        rw [hfind] at hres
        obtain ⟨o, ho, hod⟩ := Option.bind_eq_some.mp hres
        have ho' : child.moves.get? index = some (some d) := by
          have : o = some d := hod
          rw [← this]
          exact ho
        obtain ⟨hcmem, hmaxvis⟩ := max_by_visits_spec hmax
        have hf2 : List.Forall₂ (fun y pool => y ∈ pool) child.moves
            (snakes_safe_moves root_state) :=
          mem_cartesian_product (hchildren child hcmem)
        have hlenmv : child.moves.length = (snakes_safe_moves root_state).length :=
          hf2.length_eq
        have hidx : index < child.moves.length := by
          by_contra hc
          rw [List.get?_eq_none.mpr (le_of_not_lt hc)] at ho'
          cases ho'
        have hn : (snakes_safe_moves root_state).length = root_state.snakes.length := by
          unfold snakes_safe_moves
          rw [List.length_map, List.length_range]
        have hidxs : index < root_state.snakes.length := by omega
        obtain ⟨snake, hsnake⟩ : ∃ snake, root_state.snakes.get? index = some snake := by
          cases hs : root_state.snakes.get? index with
          | none =>
            have := List.get?_eq_none.mp hs
            omega
          | some snake => exact ⟨snake, rfl⟩
        have hrange : (List.range root_state.snakes.length).get? index = some index := by
          rw [List.get?_eq_getElem?]
          simp [hidxs]
        have hpool : (snakes_safe_moves root_state).get? index =
            some (if 0 < snake.health then
                if get_safe_moves root_state index = [] then [none]
                else (get_safe_moves root_state index).map some
              else [none]) := by
          unfold snakes_safe_moves
          rw [List.get?_map, hrange, Option.map_some']
          simp only [hsnake]
        have hmem := forall₂_get? hf2 ho' hpool
        refine ⟨index, child, rfl, rfl, hcmem, hmaxvis, ho', ?_⟩
        by_cases hhl : 0 < snake.health
        · rw [if_pos hhl] at hmem
          by_cases hsm : get_safe_moves root_state index = []
          · rw [if_pos hsm] at hmem
            rcases List.mem_singleton.mp hmem with h
            cases h
          · rw [if_neg hsm] at hmem
            obtain ⟨d2, hd2, hd2d⟩ := List.mem_map.mp hmem
            have : d2 = d := Option.some_injective _ hd2d
            rw [← this]
            exact hd2
        · rw [if_neg hhl] at hmem
          rcases List.mem_singleton.mp hmem with h
          cases h

def c8wit_state : GameState :=
  { width := 5, height := 5,
    snakes := [{ id := "a", body := [12, 11], health := 90 },
               { id := "b", body := [13, 14], health := 90 }],
    food := [], hazards := [] }

def c8wit_children : List SearchNode :=
  [⟨5, [some Direction.up, some Direction.up]⟩,
   ⟨7, [some Direction.down, some Direction.down]⟩]

theorem best_move_from_most_visited_child_is_safe_witness :
    (∀ c ∈ c8wit_children, c.moves ∈ cartesian_product (snakes_safe_moves c8wit_state)) ∧
    get_best_move_for_snake c8wit_state c8wit_children "a" = some Direction.down ∧
    ∃ index child,
      c8wit_state.snakes.findIdx? (fun s => s.id = "a") = some index ∧
      max_by_visits c8wit_children = some child ∧ child ∈ c8wit_children ∧
      (∀ c ∈ c8wit_children, c.visits ≤ child.visits) ∧
      child.moves.get? index = some (some Direction.down) ∧
      Direction.down ∈ get_safe_moves c8wit_state index :=
  ⟨by decide, by decide,
    best_move_from_most_visited_child_is_safe c8wit_state c8wit_children "a" Direction.down
      (by decide) (by decide)⟩
